import Mathlib

/-!
# Verification of the reading-tracker firmware core
  (source: `bookstand v3/WROOM32Ddeepsleepmode/WROOM32Ddeepsleepmode.ino`)

Shallow embedding of the session state machine, the multi-book library
store, the adaptive pomodoro timer model and the suspend/resume
persistence path of the firmware.

Modeling conventions:
* `unsigned long` counters and `millis()` timestamps are modeled as `Nat`.
  All quantities reached by the claims stay far below `2 ^ 32`, so the
  wrap-around of the 32-bit counters is not modeled.
* C `int` counters (session / pomodoro counts, slot indices) are modeled
  as `Nat` where they are only ever non-negative, and as `Int` where the
  code uses `-1` as a sentinel (`currentBookIndex`, slot lookups).
* C `float` quantities (`avgSessionMinutes`, the learning/growth factors)
  are modeled as exact rationals, represented by the executable
  unnormalized-fraction type `Frac` below (`Frac.toRat` gives the value);
  a cast `(unsigned long)(e)` of a non-negative float expression is
  modeled as the floor `⌊e⌋`.  At every concrete input used below the
  binary32 computation and the exact rational computation agree.
* The ESP32 `Preferences` namespaces (`prefs` for "reading", `bookPrefs`
  for "books") are modeled as association lists where `put` prepends and
  `get` takes the first hit, i.e. last-write-wins, which is the NVS
  semantics.
* Display rendering, beeps and serial logging have no modeled effect,
  except for the state mutations they perform (`displayBookInfo` sets
  `isShowingNFC` / `nfcDisplayStartTime` when the OLED is initialized).
-/

/-- Exact rational arithmetic for the C `float` computations, kept as
unnormalized `num / den` pairs (`den` is positive for every value built
here) so that every operation is a plain integer computation. -/
structure Frac where
  num : Int
  den : Nat
  deriving Repr, DecidableEq

/-- Embed a machine integer into the float model. -/
def Frac.ofNat (n : Nat) : Frac := ⟨Int.ofNat n, 1⟩

/-- Exact rational addition on fraction pairs. -/
def Frac.add (x y : Frac) : Frac := ⟨x.num * y.den + y.num * x.den, x.den * y.den⟩

/-- Exact rational multiplication on fraction pairs. -/
def Frac.mul (x y : Frac) : Frac := ⟨x.num * y.num, x.den * y.den⟩

/-- Exact rational reciprocal (sign moved to the numerator). -/
def Frac.inv (x : Frac) : Frac :=
  if 0 ≤ x.num then ⟨Int.ofNat x.den, x.num.toNat⟩ else ⟨-(Int.ofNat x.den), (-x.num).toNat⟩

/-- Exact rational division on fraction pairs. -/
def Frac.div (x y : Frac) : Frac := x.mul y.inv

/-- Comparison by cross-multiplication (denominators are positive). -/
def Frac.le (x y : Frac) : Prop := x.num * y.den ≤ y.num * x.den

instance (x y : Frac) : Decidable (Frac.le x y) := Int.decLe _ _

/-- The `(unsigned long)` cast of a non-negative float value: its floor. -/
def Frac.floorNat (x : Frac) : Nat := x.num.toNat / x.den

/-- The rational value a fraction pair stands for. -/
def Frac.toRat (x : Frac) : ℚ := (x.num : ℚ) / (x.den : ℚ)

/-- Values storable in an ESP32 `Preferences` namespace. -/
inductive PrefVal where
  | u (n : Nat)      -- putULong / getULong
  | i (n : Int)      -- putInt / getInt
  | f (q : Frac)     -- putFloat / getFloat
  | s (v : String)   -- putString / getString
  deriving Repr, DecidableEq

/-- A `Preferences` namespace: association list, newest entry first. -/
abbrev Prefs := List (String × PrefVal)

/-- `Preferences::put*`: last write wins, so prepend. -/
def Prefs.put (p : Prefs) (k : String) (v : PrefVal) : Prefs :=
  (k, v) :: p

/-- First (i.e. most recent) value stored under `k`. -/
def Prefs.get : Prefs → String → Option PrefVal
  | [], _ => none
  | (k1, v) :: rest, k => if k1 = k then some v else Prefs.get rest k

/-- `Preferences::getULong(key, default)`. -/
def Prefs.getULong (p : Prefs) (k : String) (d : Nat) : Nat :=
  match p.get k with
  | some (PrefVal.u n) => n
  | _ => d

/-- `Preferences::getInt(key, default)`. -/
def Prefs.getIntD (p : Prefs) (k : String) (d : Int) : Int :=
  match p.get k with
  | some (PrefVal.i n) => n
  | _ => d

/-- `Preferences::getFloat(key, default)`. -/
def Prefs.getFloat (p : Prefs) (k : String) (d : Frac) : Frac :=
  match p.get k with
  | some (PrefVal.f q) => q
  | _ => d

/-- `Preferences::getString(key, default)`. -/
def Prefs.getString (p : Prefs) (k : String) (d : String) : String :=
  match p.get k with
  | some (PrefVal.s v) => v
  | _ => d

/-- `Preferences::isKey(key)`. -/
def Prefs.isKey (p : Prefs) (k : String) : Bool :=
  (p.get k).isSome

/-- `struct Book` of the firmware. -/
structure Book where
  uid : String
  name : String
  totalSeconds : Nat
  lastRead : Nat
  sessionCount : Nat
  pomodoroCount : Nat
  avgSessionMinutes : Frac
  isActive : Bool
  deriving Repr, DecidableEq

/-- The zero-initialized book record (`initializeBooks`, first loop). -/
def emptyBook : Book :=
  { uid := "", name := "", totalSeconds := 0, lastRead := 0,
    sessionCount := 0, pomodoroCount := 0, avgSessionMinutes := Frac.ofNat 0,
    isActive := false }

instance : Inhabited Book := ⟨emptyBook⟩

/-- `const int MAX_BOOKS = 10`. -/
def MAX_BOOKS : Nat := 10

/-- Per-slot key stem: `"book" + String(i)`. -/
def bookKey (i : Nat) : String := "book" ++ toString i

/-- Externally visible events of the pomodoro-completion path, used to
state the ordering claims (§5 of the spec). -/
inductive Ev where
  | commitWrite    -- a Library Store write of a book record (saveBookData)
  | timerAdjust    -- the Timer Model recompute of the adaptive target
  | focusIncr      -- a `pomodoroCount++` (focus-cycle counter increment)
  | enterResting   -- the transition into the Resting state
  deriving Repr, DecidableEq

/-- Global mutable state of the firmware relevant to the core
(session state machine, library store, timer model, persistence). -/
structure Sys where
  books : List Book                   -- Book books[MAX_BOOKS]
  currentBookIndex : Int              -- -1 = no book
  currentBookUID : String
  lastUID : String
  bookChanged : Bool
  isShowingNFC : Bool
  nfcDisplayStartTime : Nat
  isReading : Bool
  isPaused : Bool
  inRest : Bool
  sessionStartMillis : Nat
  accumulatedSessionMillis : Nat
  restStartMillis : Nat
  totalReadingSeconds : Nat
  adaptivePomodoroMillis : Nat
  adaptiveTotalSessionTime : Nat
  adaptiveSessionCount : Nat
  lastActivityTime : Nat
  oledInitialized : Bool
  prefs : Prefs                       -- namespace "reading"
  bookPrefs : Prefs                   -- namespace "books"
  deriving Repr, DecidableEq

/-- `findBookByUID`: linear scan over the active slots, `-1` if absent. -/
def findBookByUID (books : List Book) (uid : String) : Int :=
  match books.findIdx? (fun b => b.isActive && b.uid == uid) with
  | some i => Int.ofNat i
  | none => -1

/-- `generateBookName`: `"Book-"` followed by the last 4 characters of the
uid (the `snprintf` bound of 20 characters is never hit). -/
def generateBookName (uid : String) : String :=
  "Book-" ++ (uid.drop (uid.length - 4))

/-- `saveBookData(index)`: write-through of one record to the "books"
namespace; ignored for an out-of-range or inactive slot.  Also returns
the Library-Store-write events it performs. -/
def saveBookData (s : Sys) (index : Int) : Sys × List Ev :=
  if index < 0 ∨ (MAX_BOOKS : Int) ≤ index then (s, []) else
  let i := index.toNat
  let b := s.books.getD i emptyBook
  if b.isActive = false then (s, []) else
  let k := bookKey i
  let bp := s.bookPrefs
  let bp := bp.put (k ++ "_uid") (PrefVal.s b.uid)
  let bp := bp.put (k ++ "_name") (PrefVal.s b.name)
  let bp := bp.put (k ++ "_total") (PrefVal.u b.totalSeconds)
  let bp := bp.put (k ++ "_last") (PrefVal.u b.lastRead)
  let bp := bp.put (k ++ "_sessions") (PrefVal.i (Int.ofNat b.sessionCount))
  let bp := bp.put (k ++ "_pomodoros") (PrefVal.i (Int.ofNat b.pomodoroCount))
  let bp := bp.put (k ++ "_avg") (PrefVal.f b.avgSessionMinutes)
  ({ s with bookPrefs := bp }, [Ev.commitWrite])

/-- `addNewBook(uid)`: first free slot, zeroed counters, generated name,
immediate write-through, then refresh the stored active count.
Returns `-1` when the table is full ("Book library full!"). -/
def addNewBook (s : Sys) (uid : String) (now : Nat) : Sys × Int :=
  match s.books.findIdx? (fun b => !b.isActive) with
  | none => (s, -1)
  | some emptySlot =>
    let b : Book :=
      { uid := uid, name := generateBookName uid,
        totalSeconds := 0, lastRead := now / 1000,
        sessionCount := 0, pomodoroCount := 0,
        avgSessionMinutes := Frac.ofNat 0, isActive := true }
    let s := { s with books := s.books.set emptySlot b }
    let s := (saveBookData s (Int.ofNat emptySlot)).1
    let activeCount := (s.books.filter (fun b => b.isActive)).length
    let s := { s with bookPrefs := s.bookPrefs.put "count" (PrefVal.i (Int.ofNat activeCount)) }
    (s, Int.ofNat emptySlot)

/-- `saveCurrentBookSession()`: commit `accumulatedSessionMillis / 1000`
seconds to the current record — total, session count, running average,
last-read stamp — then write through.  Note that the code does NOT fold
in the running span `now - sessionStartMillis` here, and does NOT reset
`accumulatedSessionMillis`. -/
def saveCurrentBookSession (s : Sys) (now : Nat) : Sys × List Ev :=
  if s.currentBookIndex < 0 ∨ (MAX_BOOKS : Int) ≤ s.currentBookIndex then (s, []) else
  let i := s.currentBookIndex.toNat
  let sessionSeconds := s.accumulatedSessionMillis / 1000
  if sessionSeconds = 0 then (s, []) else
  let b := s.books.getD i emptyBook
  let b := { b with totalSeconds := b.totalSeconds + sessionSeconds,
                    sessionCount := b.sessionCount + 1,
                    lastRead := now / 1000 }
  let totalMinutes : Frac := Frac.div (Frac.ofNat b.totalSeconds) (Frac.ofNat 60)
  let b := { b with avgSessionMinutes := Frac.div totalMinutes (Frac.ofNat b.sessionCount) }
  let s := { s with books := s.books.set i b }
  saveBookData s s.currentBookIndex

/-- Arduino `constrain(amt, low, high)`. -/
def constrainNat (amt low high : Nat) : Nat :=
  if amt < low then low else if high < amt then high else amt


/-- The significance floor: sessions under 5 minutes are noise. -/
def SIGNIFICANCE_FLOOR : Nat := 5 * 60 * 1000

/-- `saveAdaptivePomodoro(sessionMillis)`: the Adaptive Timer Model
`adjust` operation.  Ignores sessions below the 5-minute floor; updates
the lifetime totals; tiers on the completion ratio; on a completed
session (ratio ≥ 1) also increments the current book's `pomodoroCount`
and writes that record through; clamps the target into
[5 min, 60 min]; persists the timer model.  The constants 1.05, 1.02,
0.15, 0.8, 0.7 of the source are the rationals below. -/
def saveAdaptivePomodoro (s : Sys) (sessionMillis : Nat) : Sys × List Ev :=
  if sessionMillis < SIGNIFICANCE_FLOOR then (s, []) else
  -- 更新历史数据 (update lifetime totals first)
  let s := { s with adaptiveTotalSessionTime := s.adaptiveTotalSessionTime + sessionMillis,
                    adaptiveSessionCount := s.adaptiveSessionCount + 1 }
  let completionRate : Frac :=
    Frac.div (Frac.ofNat sessionMillis) (Frac.ofNat s.adaptivePomodoroMillis)
  let historicalAverage : Nat := s.adaptiveTotalSessionTime / s.adaptiveSessionCount
  let se :=
    if Frac.le (Frac.ofNat 1) completionRate then
      let t :=
        if Frac.le ⟨6, 5⟩ completionRate then          -- ratio ≥ 1.2
          (Frac.mul (Frac.ofNat s.adaptivePomodoroMillis) ⟨21, 20⟩).floorNat  -- SUCCESS_GROWTH 1.05
        else
          (Frac.mul (Frac.ofNat s.adaptivePomodoroMillis) ⟨51, 50⟩).floorNat  -- PARTIAL_GROWTH 1.02
      let s := { s with adaptivePomodoroMillis := t }
      -- 更新当前书籍的番茄钟计数
      if 0 ≤ s.currentBookIndex then
        let i := s.currentBookIndex.toNat
        let b := s.books.getD i emptyBook
        let s := { s with books := s.books.set i { b with pomodoroCount := b.pomodoroCount + 1 } }
        let we := saveBookData s s.currentBookIndex
        (we.1, [Ev.timerAdjust, Ev.focusIncr] ++ we.2)
      else (s, [Ev.timerAdjust])
    else if Frac.le ⟨4, 5⟩ completionRate then         -- 0.8 ≤ ratio < 1
      ({ s with adaptivePomodoroMillis :=
           (Frac.add (Frac.mul ⟨3, 20⟩ (Frac.ofNat historicalAverage))
              (Frac.mul ⟨17, 20⟩ (Frac.ofNat s.adaptivePomodoroMillis))).floorNat },
       [Ev.timerAdjust])
    else if Frac.le ⟨3, 5⟩ completionRate then         -- 0.6 ≤ ratio < 0.8
      let targetAdjustment := (Frac.mul (Frac.ofNat historicalAverage) ⟨4, 5⟩).floorNat
      ({ s with adaptivePomodoroMillis :=
           (Frac.add (Frac.mul ⟨3, 20⟩ (Frac.ofNat targetAdjustment))
              (Frac.mul ⟨17, 20⟩ (Frac.ofNat s.adaptivePomodoroMillis))).floorNat },
       [Ev.timerAdjust])
    else                                               -- ratio < 0.6
      let targetAdjustment := (Frac.mul (Frac.ofNat historicalAverage) ⟨7, 10⟩).floorNat
      ({ s with adaptivePomodoroMillis :=
           (Frac.add (Frac.mul ⟨3, 20⟩ (Frac.ofNat targetAdjustment))
              (Frac.mul ⟨17, 20⟩ (Frac.ofNat s.adaptivePomodoroMillis))).floorNat },
       [Ev.timerAdjust])
  let s := se.1
  -- 限制番茄钟时长范围（5分钟-60分钟）
  let s := { s with adaptivePomodoroMillis :=
               constrainNat s.adaptivePomodoroMillis (5 * 60 * 1000) (60 * 60 * 1000) }
  -- 保存到Flash存储
  let p := s.prefs
  let p := p.put "pomodoro" (PrefVal.u s.adaptivePomodoroMillis)
  let p := p.put "adaptTime" (PrefVal.u s.adaptiveTotalSessionTime)
  let p := p.put "adaptCount" (PrefVal.u s.adaptiveSessionCount)
  ({ s with prefs := p }, se.2)

/-- `displayBookInfo(bookIndex)`: state effects only (marks the NFC info
screen active); drawing is not modeled. -/
def displayBookInfo (s : Sys) (bookIndex : Int) (now : Nat) : Sys :=
  if s.oledInitialized = false ∨ bookIndex < 0 ∨ (MAX_BOOKS : Int) ≤ bookIndex then s else
  { s with isShowingNFC := true, nfcDisplayStartTime := now }

/-- `switchBook(uid)`: commit the current record's session, look the tag
up (creating a record if the table has room), and on success attach the
new record: reset the accumulated session duration and bump its
`sessionCount`.  On a full table the state after the commit is returned
unchanged.  Note the code neither resets `sessionStartMillis` nor
touches `isReading` here. -/
def switchBook (s : Sys) (uid : String) (now : Nat) : Sys × List Ev :=
  let c := if 0 ≤ s.currentBookIndex then saveCurrentBookSession s now else (s, [])
  let s := c.1
  let a :=
    let bi := findBookByUID s.books uid
    if bi = -1 then addNewBook s uid now else (s, bi)
  let s := a.1
  let bookIndex := a.2
  if bookIndex = -1 then (s, c.2) else
  let s := { s with currentBookIndex := bookIndex, currentBookUID := uid,
                    bookChanged := true, accumulatedSessionMillis := 0 }
  let i := bookIndex.toNat
  let b := s.books.getD i emptyBook
  let s := { s with books := s.books.set i { b with sessionCount := b.sessionCount + 1 } }
  let s := displayBookInfo s bookIndex now
  ({ s with lastActivityTime := now }, c.2)

/-- `showNFCUIDAndSave`: record the uid in the "reading" namespace and
switch to that book (the uid string is passed in already rendered). -/
def showNFCUIDAndSave (s : Sys) (uidStr : String) (now : Nat) : Sys × List Ev :=
  let s := { s with lastUID := uidStr, prefs := s.prefs.put "lastUID" (PrefVal.s uidStr) }
  switchBook s uidStr now

/-- The NFC-detection branch of `loop()` (a successful
`readPassiveTargetID` with rendered uid `uidStr`): a detection is acted
on iff the uid differs from the attached book's OR the NFC info screen
is not currently showing. -/
def nfcDetect (s : Sys) (uidStr : String) (now : Nat) : Sys × List Ev :=
  if uidStr ≠ s.currentBookUID ∨ s.isShowingNFC = false then
    let s := { s with isShowingNFC := true, nfcDisplayStartTime := now }
    let r := showNFCUIDAndSave s uidStr now
    ({ r.1 with lastActivityTime := now }, r.2)
  else (s, [])

/-- The pomodoro-completion block of `loop()` (entered while Reading when
`currentSessionMillis ≥ adaptivePomodoroMillis`): bump the book's
`pomodoroCount`, commit the session, adjust the timer model, then enter
Resting with the accumulated duration zeroed. -/
def pomodoroCompletePath (s : Sys) (now : Nat) : Sys × List Ev :=
  let currentSessionMillis := now - s.sessionStartMillis + s.accumulatedSessionMillis
  let i := s.currentBookIndex.toNat
  let b := s.books.getD i emptyBook
  let s := { s with books := s.books.set i { b with pomodoroCount := b.pomodoroCount + 1 } }
  let c := saveCurrentBookSession s now
  let a := saveAdaptivePomodoro c.1 currentSessionMillis
  let s := { a.1 with isReading := false, inRest := true, restStartMillis := now,
                      accumulatedSessionMillis := 0, lastActivityTime := now }
  (s, Ev.focusIncr :: (c.2 ++ a.2 ++ [Ev.enterResting]))

/-- The low-light pause branch of `loop()` while Reading: fold the
running span into the accumulated duration and pause. -/
def lightPause (s : Sys) (now : Nat) : Sys :=
  { s with accumulatedSessionMillis := s.accumulatedSessionMillis + (now - s.sessionStartMillis),
           isReading := false, isPaused := true }

/-- The reading-(re)start branch of `loop()` (light sufficient, not
reading, not resting, a book attached): restart the session timer,
preserving the accumulated duration. -/
def startReading (s : Sys) (now : Nat) : Sys :=
  { s with isReading := true, isPaused := false,
           sessionStartMillis := now, lastActivityTime := now }

/-- The state persistence performed by `enterSmartSleep()` before the
hardware is shut down: commit the in-progress session (accumulated plus
the running span when Reading) to the current record, adjust the timer
model with it, update the global total, and store the last book index. -/
def enterSmartSleepPersist (s : Sys) (now : Nat) : Sys × List Ev :=
  let pe :=
    if 0 ≤ s.currentBookIndex ∧ (s.isReading = true ∨ s.isPaused = true) then
      let sessionMillis :=
        s.accumulatedSessionMillis + (if s.isReading then now - s.sessionStartMillis else 0)
      let i := s.currentBookIndex.toNat
      let b := s.books.getD i emptyBook
      let s := { s with books :=
                   s.books.set i { b with totalSeconds := b.totalSeconds + sessionMillis / 1000,
                                          lastRead := now / 1000 } }
      let w := saveBookData s s.currentBookIndex
      let a := saveAdaptivePomodoro w.1 sessionMillis
      let s := a.1
      let s := { s with totalReadingSeconds := s.totalReadingSeconds + sessionMillis / 1000 }
      let s := { s with prefs := s.prefs.put "totalSecs" (PrefVal.u s.totalReadingSeconds) }
      (s, w.2 ++ a.2)
    else (s, [])
  let s := pe.1
  ({ s with prefs := s.prefs.put "lastBookIdx" (PrefVal.i s.currentBookIndex) }, pe.2)

/-- One record as `initializeBooks` reconstructs it from the "books"
namespace. -/
def loadedBook (bp : Prefs) (i : Nat) : Book :=
  let k := bookKey i
  { uid := bp.getString (k ++ "_uid") "",
    name := bp.getString (k ++ "_name") ("Book " ++ toString (i + 1)),
    totalSeconds := bp.getULong (k ++ "_total") 0,
    lastRead := bp.getULong (k ++ "_last") 0,
    sessionCount := (bp.getIntD (k ++ "_sessions") 0).toNat,
    pomodoroCount := (bp.getIntD (k ++ "_pomodoros") 0).toNat,
    avgSessionMinutes := bp.getFloat (k ++ "_avg") (Frac.ofNat 0),
    isActive := true }

/-- `initializeBooks()`: zero the table, then reload slots
`0 ≤ i < min(count, MAX_BOOKS)` whose uid key exists. -/
def initializeBooks (bp : Prefs) : List Book :=
  (List.range MAX_BOOKS).map (fun i =>
    if i < (bp.getIntD "count" 0).toNat ∧ i < MAX_BOOKS ∧ bp.isKey (bookKey i ++ "_uid") = true
    then loadedBook bp i
    else emptyBook)

/-- The state reconstruction performed by `setup()` after a power cycle:
reload the library from the "books" namespace and the aggregates and the
adaptive timer model from the "reading" namespace (with the 25-minute
default target). -/
def resumeLoad (p : Prefs) (bp : Prefs) : Sys :=
  { books := initializeBooks bp,
    currentBookIndex := -1,
    currentBookUID := "",
    lastUID := "",
    bookChanged := false,
    isShowingNFC := false,
    nfcDisplayStartTime := 0,
    isReading := false,
    isPaused := false,
    inRest := false,
    sessionStartMillis := 0,
    accumulatedSessionMillis := 0,
    restStartMillis := 0,
    totalReadingSeconds := p.getULong "totalSecs" 0,
    adaptivePomodoroMillis := p.getULong "pomodoro" (25 * 60000),
    adaptiveTotalSessionTime := p.getULong "adaptTime" 0,
    adaptiveSessionCount := p.getULong "adaptCount" 0,
    lastActivityTime := 0,
    oledInitialized := true,
    prefs := p,
    bookPrefs := bp }

/-- `e1` always happens before `e2` in the trace `tr`: every occurrence
of `e1` precedes every occurrence of `e2`. -/
def happensBefore (tr : List Ev) (e1 e2 : Ev) : Prop :=
  ∀ i j : Fin tr.length, tr.get i = e1 → tr.get j = e2 → (i : Nat) < (j : Nat)

/-- The ordering asserted by the spec for a completed session:
session commit, then timer adjustment, then focus-cycle increment,
then the transition into Resting. -/
def claimedCompletionOrder (tr : List Ev) : Prop :=
  happensBefore tr Ev.commitWrite Ev.timerAdjust ∧
  happensBefore tr Ev.timerAdjust Ev.focusIncr ∧
  happensBefore tr Ev.focusIncr Ev.enterResting

/-- A whole sequence of Timer Model `adjust` calls. -/
def adjustMany (s : Sys) (ms : List Nat) : Sys :=
  ms.foldl (fun t m => (saveAdaptivePomodoro t m).1) s

/-- The adaptive target lies within the fixed 5-to-60-minute bound. -/
def targetInBounds (s : Sys) : Prop :=
  5 * 60 * 1000 ≤ s.adaptivePomodoroMillis ∧ s.adaptivePomodoroMillis ≤ 60 * 60 * 1000

/-- The per-record key suffixes written by `saveBookData`. -/
def slotSuffixes : List String :=
  ["_uid", "_name", "_total", "_last", "_sessions", "_pomodoros", "_avg"]

/-- The active-record count as stored under the "count" key. -/
def activeCountStored (s : Sys) : Nat :=
  (s.bookPrefs.getIntD "count" 0).toNat

/-- Store-consistency invariant tying the in-memory library table and
timer model to the two `Preferences` namespaces: the stored count is the
number of active records, which occupy an initial prefix of slots; every
active slot has its uid key present and its stored total equal to the
in-memory total; inactive slots carry no time; the attached book (when
any) is an active in-range slot; and the stored adaptive target (with
the 25-minute default) equals the in-memory target. -/
def StoreInv (s : Sys) : Prop :=
  s.books.length = MAX_BOOKS ∧
  s.bookPrefs.getIntD "count" 0 = Int.ofNat (activeCountStored s) ∧
  activeCountStored s ≤ MAX_BOOKS ∧
  (∀ i, i < MAX_BOOKS → (s.books.getD i emptyBook).isActive = decide (i < activeCountStored s)) ∧
  (∀ i, i < activeCountStored s → s.bookPrefs.isKey (bookKey i ++ "_uid") = true ∧
      s.bookPrefs.getULong (bookKey i ++ "_total") 0 = (s.books.getD i emptyBook).totalSeconds) ∧
  (∀ i, i < MAX_BOOKS → activeCountStored s ≤ i → (s.books.getD i emptyBook).totalSeconds = 0) ∧
  (s.currentBookIndex = -1 ∨
    (0 ≤ s.currentBookIndex ∧ s.currentBookIndex < (MAX_BOOKS : Int) ∧
     (s.books.getD s.currentBookIndex.toNat emptyBook).isActive = true)) ∧
  s.prefs.getULong "pomodoro" (25 * 60000) = s.adaptivePomodoroMillis

/-- Suspend (the persistence performed on entry into deep sleep) followed
by the `setup()` reconstruction after the wake. -/
def suspendResume (s : Sys) (now : Nat) : Sys :=
  resumeLoad (enterSmartSleepPersist s now).1.prefs (enterSmartSleepPersist s now).1.bookPrefs

/-- States reachable by the firmware: cold boot with an empty flash, then
closure under the state-mutating branches of `loop()` — NFC detection,
the NFC-display timeout, session start / low-light pause, the
pomodoro-completion path, rest end, and a full deep-sleep/wake cycle. -/
inductive Reachable : Sys → Prop where
  | boot : Reachable (resumeLoad [] [])
  | detect (s : Sys) (uid : String) (now : Nat) :
      Reachable s → Reachable (nfcDetect s uid now).1
  | nfcTimeout (s : Sys) :
      Reachable s → Reachable { s with isShowingNFC := false, bookChanged := false }
  | startRead (s : Sys) (now : Nat) :
      Reachable s → s.isReading = false → s.inRest = false →
      0 ≤ s.currentBookIndex → Reachable (startReading s now)
  | pause (s : Sys) (now : Nat) :
      Reachable s → s.isReading = true → Reachable (lightPause s now)
  | complete (s : Sys) (now : Nat) :
      Reachable s → s.isReading = true →
      s.adaptivePomodoroMillis ≤ now - s.sessionStartMillis + s.accumulatedSessionMillis →
      Reachable (pomodoroCompletePath s now).1
  | restEnd (s : Sys) (now : Nat) :
      Reachable s → Reachable { s with inRest := false, lastActivityTime := now }
  | sleepWake (s : Sys) (now : Nat) :
      Reachable s → Reachable (suspendResume s now)

/-- A fresh active record for demonstration states. -/
def activeBook (uid : String) : Book :=
  { emptyBook with uid := uid, name := generateBookName uid, isActive := true }

/-- Pad a slot list out to the fixed table capacity. -/
def padBooks (l : List Book) : List Book :=
  l ++ List.replicate (MAX_BOOKS - l.length) emptyBook

/-- A library with every slot occupied by an active record. -/
def fullLib : Sys :=
  { resumeLoad [] [] with
      books := (List.range MAX_BOOKS).map (fun i => activeBook (toString i)) }

/-- Demonstration records. -/
def bookA : Book := { activeBook "04 aa" with totalSeconds := 100 }

def bookB : Book := { activeBook "04 bb" with totalSeconds := 50 }

/-- A state in the Reading phase: book `bookA` attached (slot 0), the
session timer started at 0 ms, nothing accumulated from pauses yet, the
adaptive target at the 25-minute default. -/
def readingPre : Sys :=
  { resumeLoad [] [] with
      books := padBooks [bookA, bookB],
      currentBookIndex := 0, currentBookUID := "04 aa",
      isShowingNFC := true,
      isReading := true, sessionStartMillis := 0, accumulatedSessionMillis := 0 }

/-! ## Helper lemmas: the key-value store -/

theorem Prefs.get_put_self (p : Prefs) (k : String) (v : PrefVal) :
    (p.put k v).get k = some v := by
  simp [Prefs.put, Prefs.get]

theorem Prefs.get_put_ne (p : Prefs) (k k1 : String) (v : PrefVal) (h : k ≠ k1) :
    (p.put k v).get k1 = p.get k1 := by
  simp [Prefs.put, Prefs.get, h]

theorem Prefs.getULong_put_u (p : Prefs) (k : String) (n d : Nat) :
    (p.put k (PrefVal.u n)).getULong k d = n := by
  simp [Prefs.getULong, Prefs.get_put_self]

theorem Prefs.getULong_put_ne (p : Prefs) (k k1 : String) (v : PrefVal) (d : Nat)
    (h : k ≠ k1) : (p.put k v).getULong k1 d = p.getULong k1 d := by
  simp [Prefs.getULong, Prefs.get_put_ne p k k1 v h]

theorem Prefs.getIntD_put_ne (p : Prefs) (k k1 : String) (v : PrefVal) (d : Int)
    (h : k ≠ k1) : (p.put k v).getIntD k1 d = p.getIntD k1 d := by
  simp [Prefs.getIntD, Prefs.get_put_ne p k k1 v h]

theorem Prefs.isKey_put_self (p : Prefs) (k : String) (v : PrefVal) :
    (p.put k v).isKey k = true := by
  simp [Prefs.isKey, Prefs.get_put_self]

theorem Prefs.isKey_put_ne (p : Prefs) (k k1 : String) (v : PrefVal)
    (h : k ≠ k1) : (p.put k v).isKey k1 = p.isKey k1 := by
  simp [Prefs.isKey, Prefs.get_put_ne p k k1 v h]

/-! ## Helper lemmas: the float model -/

theorem Frac.toRat_ofNat (n : Nat) : (Frac.ofNat n).toRat = (n : ℚ) := by
  simp [Frac.ofNat, Frac.toRat]

theorem Frac.toRat_mul (x y : Frac) : (Frac.mul x y).toRat = x.toRat * y.toRat := by
  unfold Frac.mul Frac.toRat
  push_cast
  rw [div_mul_div_comm]

theorem Frac.toRat_inv (x : Frac) : (Frac.inv x).toRat = x.toRat⁻¹ := by
  unfold Frac.inv Frac.toRat
  split
  · next h =>
    rw [inv_div]
    have h2 : ((x.num.toNat : ℕ) : ℚ) = (x.num : ℚ) := by
      rw [← Int.cast_natCast]
      exact congrArg _ (Int.toNat_of_nonneg h)
    simp only [Int.ofNat_eq_natCast, Int.cast_natCast]
    rw [h2]
  · next h =>
    rw [inv_div]
    have h2 : (((-x.num).toNat : ℕ) : ℚ) = ((-x.num : ℤ) : ℚ) := by
      rw [← Int.cast_natCast]
      exact congrArg _ (Int.toNat_of_nonneg (by omega))
    simp only [Int.cast_neg, Int.ofNat_eq_natCast, Int.cast_natCast]
    rw [h2]
    push_cast
    rw [neg_div_neg_eq]

theorem Frac.toRat_div (x y : Frac) : (Frac.div x y).toRat = x.toRat / y.toRat := by
  rw [Frac.div, Frac.toRat_mul, Frac.toRat_inv, div_eq_mul_inv]

theorem Frac.one_le_div_ofNat (m t : Nat) (h : t ≤ m) :
    Frac.le (Frac.ofNat 1) (Frac.div (Frac.ofNat m) (Frac.ofNat t)) := by
  simp only [Frac.le, Frac.div, Frac.mul, Frac.inv, Frac.ofNat]
  rw [if_pos (by simp only [Int.ofNat_eq_natCast]; exact Int.natCast_nonneg _)]
  simp only [Int.ofNat_eq_natCast, Int.toNat_ofNat]
  push_cast
  omega

/-! ## Helper lemmas: slot keys are pairwise distinct -/

theorem bookKey_append_inj :
    ∀ i : Fin 10, ∀ j : Fin 10, ∀ a ∈ slotSuffixes, ∀ b ∈ slotSuffixes,
      (bookKey i.val ++ a = bookKey j.val ++ b) ↔ (i = j ∧ a = b) := by
  decide

theorem count_ne_slotKey :
    ∀ i : Fin 10, ∀ a ∈ slotSuffixes, "count" ≠ bookKey i.val ++ a := by
  decide

/-! ## Helper lemmas: list access -/

theorem getD_set (l : List Book) (j i : Nat) (b : Book) :
    (l.set j b).getD i emptyBook =
      if j = i ∧ j < l.length then b else l.getD i emptyBook := by
  simp only [List.getD_eq_getElem?_getD, List.getElem?_set]
  by_cases hji : j = i
  · subst hji
    by_cases hj : j < l.length
    · simp [hj]
    · have hi : l.length ≤ j := Nat.not_lt.mp hj
      simp [hj, List.getElem?_eq_none hi]
  · simp [hji]

theorem getD_map_range (f : Nat → Book) (n i : Nat) :
    ((List.range n).map f).getD i emptyBook = if i < n then f i else emptyBook := by
  rcases Nat.lt_or_ge i n with h | h
  · simp [List.getD_eq_getElem?_getD, List.getElem?_map, List.getElem?_range h, h]
  · have : ((List.range n).map f).length ≤ i := by simpa using h
    simp [List.getD_eq_getElem?_getD, List.getElem?_eq_none this, Nat.not_lt.mpr h]

theorem findIdx?_none_of_all {α : Type} (p : α → Bool) (l : List α)
    (h : ∀ x ∈ l, p x = false) : l.findIdx? p = none := by
  rw [List.findIdx?_eq_none_iff]
  exact h

theorem findIdx?_first_hit {α : Type} (p : α → Bool) (l : List α) (d : α) (n : Nat)
    (hn : n < l.length)
    (hbefore : ∀ k, k < n → p (l.getD k d) = false)
    (hhit : p (l.getD n d) = true) : l.findIdx? p = some n := by
  rw [List.findIdx?_eq_some_iff_getElem]
  refine ⟨hn, ?_, ?_⟩
  · have := hhit
    rwa [List.getD_eq_getElem?_getD, List.getElem?_eq_getElem hn] at this
  · intro j hj
    have hb := hbefore j hj
    rw [List.getD_eq_getElem?_getD, List.getElem?_eq_getElem (Nat.lt_trans hj hn)] at hb
    simpa using hb

theorem length_filter_isActive (l : List Book) (n : Nat)
    (h : ∀ i, i < l.length → (l.getD i emptyBook).isActive = decide (i < n))
    (hn : n ≤ l.length) :
    (l.filter (fun b => b.isActive)).length = n := by
  induction l generalizing n with
  | nil =>
    simp only [List.length_nil] at hn
    simp only [List.filter_nil, List.length_nil]
    omega
  | cons x xs ih =>
    have hx : x.isActive = decide (0 < n) := h 0 (Nat.succ_pos _)
    cases n with
    | zero =>
      have hall : ∀ i, i < xs.length → (xs.getD i emptyBook).isActive = decide (i < 0) := by
        intro i hi
        have := h (i + 1) (by simpa using Nat.succ_lt_succ hi)
        simpa [List.getD_cons_succ] using this
      have : (xs.filter (fun b => b.isActive)).length = 0 := ih 0 hall (Nat.zero_le _)
      simp only [List.filter_cons]
      rw [hx]
      simpa using this
    | succ m =>
      have hall : ∀ i, i < xs.length → (xs.getD i emptyBook).isActive = decide (i < m) := by
        intro i hi
        have := h (i + 1) (by simpa using Nat.succ_lt_succ hi)
        simpa [List.getD_cons_succ, Nat.succ_lt_succ_iff] using this
      have hm : m ≤ xs.length := by simpa [Nat.succ_le_succ_iff] using hn
      have hxs := ih m hall hm
      simp only [List.filter_cons]
      rw [hx]
      simp [hxs]

/-! ## Helper lemmas: saveBookData touches only the "books" namespace -/

theorem saveBookData_books (s : Sys) (idx : Int) :
    (saveBookData s idx).1.books = s.books := by
  dsimp only [saveBookData]
  split
  · rfl
  · split
    · rfl
    · rfl

theorem saveBookData_prefs (s : Sys) (idx : Int) :
    (saveBookData s idx).1.prefs = s.prefs := by
  dsimp only [saveBookData]
  split
  · rfl
  · split
    · rfl
    · rfl

theorem saveBookData_currentBookIndex (s : Sys) (idx : Int) :
    (saveBookData s idx).1.currentBookIndex = s.currentBookIndex := by
  dsimp only [saveBookData]
  split
  · rfl
  · split
    · rfl
    · rfl

theorem saveBookData_adaptive (s : Sys) (idx : Int) :
    (saveBookData s idx).1.adaptivePomodoroMillis = s.adaptivePomodoroMillis ∧
    (saveBookData s idx).1.adaptiveTotalSessionTime = s.adaptiveTotalSessionTime ∧
    (saveBookData s idx).1.adaptiveSessionCount = s.adaptiveSessionCount := by
  dsimp only [saveBookData]
  split
  · exact ⟨rfl, rfl, rfl⟩
  · split
    · exact ⟨rfl, rfl, rfl⟩
    · exact ⟨rfl, rfl, rfl⟩

/-! ## Helper lemmas: the Timer Model adjust operation -/

theorem constrainNat_mem (amt low high : Nat) (h : low ≤ high) :
    low ≤ constrainNat amt low high ∧ constrainNat amt low high ≤ high := by
  unfold constrainNat
  split
  · omega
  · split <;> omega

theorem adjust_preserves_bounds (s : Sys) (m : Nat) (h : targetInBounds s) :
    targetInBounds (saveAdaptivePomodoro s m).1 := by
  dsimp only [saveAdaptivePomodoro]
  split
  · exact h
  · constructor
    · exact (constrainNat_mem _ _ _ (by norm_num)).1
    · exact (constrainNat_mem _ _ _ (by norm_num)).2

theorem adjust_books_cases (s : Sys) (m : Nat) (i : Nat) :
    (saveAdaptivePomodoro s m).1.books.getD i emptyBook = s.books.getD i emptyBook ∨
    (saveAdaptivePomodoro s m).1.books.getD i emptyBook =
      { s.books.getD i emptyBook with
          pomodoroCount := (s.books.getD i emptyBook).pomodoroCount + 1 } := by
  dsimp only [saveAdaptivePomodoro]
  split
  · exact Or.inl rfl
  · split
    · split
      · rw [saveBookData_books]
        dsimp only
        rw [getD_set]
        split
        · next hcase =>
          obtain ⟨hji, _⟩ := hcase
          subst hji
          exact Or.inr rfl
        · exact Or.inl rfl
      · exact Or.inl rfl
    · split
      · exact Or.inl rfl
      · split
        · exact Or.inl rfl
        · exact Or.inl rfl

/-! ## Claim C7 -/

/-- C7: an `adjust` call with a session duration strictly below the
5-minute significance floor leaves the entire state unchanged — the
adaptive target, the lifetime session total and count, both preference
namespaces (nothing is persisted) — and performs no store events. -/
theorem C7_below_floor_noop (s : Sys) (m : Nat) (h : m < SIGNIFICANCE_FLOOR) :
    saveAdaptivePomodoro s m = (s, []) := by
  dsimp only [saveAdaptivePomodoro]
  rw [if_pos h]

theorem C7_below_floor_noop_witness :
    1000 < SIGNIFICANCE_FLOOR ∧ saveAdaptivePomodoro readingPre 1000 = (readingPre, []) :=
  ⟨by decide, C7_below_floor_noop readingPre 1000 (by decide)⟩

/-! ## Claim C6 -/

/-- C6: starting from a target inside the 5-to-60-minute bound (such as
the 25-minute default), the adaptive target stays inside the bound after
any sequence of `adjust` calls. -/
theorem C6_target_in_bounds (s : Sys) (ms : List Nat) (h : targetInBounds s) :
    targetInBounds (adjustMany s ms) := by
  induction ms generalizing s with
  | nil => exact h
  | cons m rest ih => exact ih _ (adjust_preserves_bounds s m h)

theorem C6_target_in_bounds_witness :
    targetInBounds readingPre ∧
      targetInBounds (adjustMany readingPre [3600000, 240000, 100000000, 310000]) :=
  ⟨by unfold targetInBounds; decide,
   C6_target_in_bounds readingPre [3600000, 240000, 100000000, 310000]
     (by unfold targetInBounds; decide)⟩

/-! ## Claim C5 -/

/-- C5: creating a record when every slot of the table is active returns
the `-1` ("Book library full!") failure result and leaves the whole
state — every slot and the stored active count — unchanged. -/
theorem C5_library_full (s : Sys) (uid : String) (now : Nat)
    (hfull : ∀ b ∈ s.books, b.isActive = true) :
    addNewBook s uid now = (s, -1) := by
  have hnone : s.books.findIdx? (fun b => !b.isActive) = none := by
    rw [List.findIdx?_eq_none_iff]
    intro x hx
    simp [hfull x hx]
  dsimp only [addNewBook]
  rw [hnone]

theorem C5_library_full_witness :
    (∀ b ∈ fullLib.books, b.isActive = true) ∧
      addNewBook fullLib "ff ee dd cc" 5000 = (fullLib, -1) :=
  ⟨by decide, C5_library_full fullLib "ff ee dd cc" 5000 (by decide)⟩

/-! ## Helper lemmas: slot keys, continued -/

theorem slotKey_ne_suffix (i : Nat) (hi : i < MAX_BOOKS) (a b : String)
    (ha : a ∈ slotSuffixes) (hb : b ∈ slotSuffixes) (hab : a ≠ b) :
    bookKey i ++ a ≠ bookKey i ++ b := by
  intro h
  have := (bookKey_append_inj ⟨i, hi⟩ ⟨i, hi⟩ a ha b hb).mp h
  exact hab this.2

theorem slotKey_ne_slot (i j : Nat) (hi : i < MAX_BOOKS) (hj : j < MAX_BOOKS) (hij : i ≠ j)
    (a b : String) (ha : a ∈ slotSuffixes) (hb : b ∈ slotSuffixes) :
    bookKey i ++ a ≠ bookKey j ++ b := by
  intro h
  have := (bookKey_append_inj ⟨i, hi⟩ ⟨j, hj⟩ a ha b hb).mp h
  exact hij (congrArg Fin.val this.1)

/-! ## Helper lemmas: the session commit -/

theorem commit_reduce (s : Sys) (now : Nat) (i : Nat)
    (hidx : s.currentBookIndex = Int.ofNat i) (hi : i < MAX_BOOKS)
    (hdur : s.accumulatedSessionMillis / 1000 ≠ 0) :
    saveCurrentBookSession s now =
      saveBookData
        { s with
            books :=
              s.books.set i
                ({ s.books.getD i emptyBook with
                    totalSeconds :=
                      (s.books.getD i emptyBook).totalSeconds
                        + s.accumulatedSessionMillis / 1000,
                    sessionCount := (s.books.getD i emptyBook).sessionCount + 1,
                    lastRead := now / 1000,
                    avgSessionMinutes :=
                      Frac.div
                        (Frac.div
                          (Frac.ofNat ((s.books.getD i emptyBook).totalSeconds
                             + s.accumulatedSessionMillis / 1000))
                          (Frac.ofNat 60))
                        (Frac.ofNat ((s.books.getD i emptyBook).sessionCount + 1)) }) }
        (Int.ofNat i) := by
  dsimp only [saveCurrentBookSession]
  rw [hidx]
  rw [if_neg (by simp only [MAX_BOOKS, Int.ofNat_eq_natCast] at hi ⊢; omega), if_neg hdur]
  simp only [Int.ofNat_eq_natCast, Int.toNat_ofNat]

theorem saveBookData_total_obs (s : Sys) (i : Nat) (hi : i < MAX_BOOKS)
    (hact : (s.books.getD i emptyBook).isActive = true) :
    (saveBookData s (Int.ofNat i)).1.bookPrefs.getULong (bookKey i ++ "_total") 0
      = (s.books.getD i emptyBook).totalSeconds ∧
    (saveBookData s (Int.ofNat i)).2 = [Ev.commitWrite] := by
  dsimp only [saveBookData]
  rw [if_neg (by simp only [MAX_BOOKS, Int.ofNat_eq_natCast] at hi ⊢; omega)]
  simp only [Int.ofNat_eq_natCast, Int.toNat_ofNat]
  rw [if_neg (by simp only [hact]; decide)]
  refine ⟨?_, rfl⟩
  rw [Prefs.getULong_put_ne _ _ _ _ _
        (slotKey_ne_suffix i hi "_avg" "_total" (by decide) (by decide) (by decide))]
  rw [Prefs.getULong_put_ne _ _ _ _ _
        (slotKey_ne_suffix i hi "_pomodoros" "_total" (by decide) (by decide) (by decide))]
  rw [Prefs.getULong_put_ne _ _ _ _ _
        (slotKey_ne_suffix i hi "_sessions" "_total" (by decide) (by decide) (by decide))]
  rw [Prefs.getULong_put_ne _ _ _ _ _
        (slotKey_ne_suffix i hi "_last" "_total" (by decide) (by decide) (by decide))]
  rw [Prefs.getULong_put_u]

theorem saveBookData_total_obs2 (s : Sys) (idx : Int) (hi : idx.toNat < MAX_BOOKS)
    (hnn : 0 ≤ idx)
    (hact : (s.books.getD idx.toNat emptyBook).isActive = true) :
    (saveBookData s idx).1.bookPrefs.getULong (bookKey idx.toNat ++ "_total") 0
      = (s.books.getD idx.toNat emptyBook).totalSeconds := by
  dsimp only [saveBookData]
  rw [if_neg (by simp only [MAX_BOOKS] at hi ⊢; omega)]
  rw [if_neg (by simp only [hact]; decide)]
  rw [Prefs.getULong_put_ne _ _ _ _ _
        (slotKey_ne_suffix idx.toNat hi "_avg" "_total" (by decide) (by decide) (by decide))]
  rw [Prefs.getULong_put_ne _ _ _ _ _
        (slotKey_ne_suffix idx.toNat hi "_pomodoros" "_total" (by decide) (by decide) (by decide))]
  rw [Prefs.getULong_put_ne _ _ _ _ _
        (slotKey_ne_suffix idx.toNat hi "_sessions" "_total" (by decide) (by decide) (by decide))]
  rw [Prefs.getULong_put_ne _ _ _ _ _
        (slotKey_ne_suffix idx.toNat hi "_last" "_total" (by decide) (by decide) (by decide))]
  rw [Prefs.getULong_put_u]

/-! ## Claim C8 -/

/-- C8: a session commit with positive duration (in whole seconds) adds
the duration to the record's cumulative total, increments its session
count by one, recomputes the running average session length as
(totalSeconds / sessionCount) expressed in minutes, updates the
last-read timestamp, and persists the record (exactly one Library Store
write, after which the stored total equals the new in-memory total). -/
theorem C8_commit_session (s : Sys) (now : Nat) (i : Nat)
    (hidx : s.currentBookIndex = Int.ofNat i) (hi : i < MAX_BOOKS)
    (hlen : s.books.length = MAX_BOOKS)
    (hact : (s.books.getD i emptyBook).isActive = true)
    (hdur : 0 < s.accumulatedSessionMillis / 1000) :
    ((saveCurrentBookSession s now).1.books.getD i emptyBook).totalSeconds
        = (s.books.getD i emptyBook).totalSeconds + s.accumulatedSessionMillis / 1000 ∧
    ((saveCurrentBookSession s now).1.books.getD i emptyBook).sessionCount
        = (s.books.getD i emptyBook).sessionCount + 1 ∧
    ((saveCurrentBookSession s now).1.books.getD i emptyBook).avgSessionMinutes.toRat
        = ((((saveCurrentBookSession s now).1.books.getD i emptyBook).totalSeconds : ℚ)
            / (((saveCurrentBookSession s now).1.books.getD i emptyBook).sessionCount : ℚ)) / 60 ∧
    ((saveCurrentBookSession s now).1.books.getD i emptyBook).lastRead = now / 1000 ∧
    (saveCurrentBookSession s now).1.bookPrefs.getULong (bookKey i ++ "_total") 0
        = (s.books.getD i emptyBook).totalSeconds + s.accumulatedSessionMillis / 1000 ∧
    (saveCurrentBookSession s now).2 = [Ev.commitWrite] := by
  have hdur1 : s.accumulatedSessionMillis / 1000 ≠ 0 := Nat.pos_iff_ne_zero.mp hdur
  have hip : i < s.books.length := by rw [hlen]; exact hi
  rw [commit_reduce s now i hidx hi hdur1]
  rw [saveBookData_books]
  dsimp only
  rw [getD_set]
  rw [if_pos ⟨rfl, hip⟩]
  refine ⟨rfl, rfl, ?_, rfl, ?_, ?_⟩
  · show (Frac.div
            (Frac.div
              (Frac.ofNat ((s.books.getD i emptyBook).totalSeconds
                 + s.accumulatedSessionMillis / 1000))
              (Frac.ofNat 60))
            (Frac.ofNat ((s.books.getD i emptyBook).sessionCount + 1))).toRat
        = ((((s.books.getD i emptyBook).totalSeconds
             + s.accumulatedSessionMillis / 1000 : Nat) : ℚ)
            / (((s.books.getD i emptyBook).sessionCount + 1 : Nat) : ℚ)) / 60
    rw [Frac.toRat_div, Frac.toRat_div, Frac.toRat_ofNat, Frac.toRat_ofNat, Frac.toRat_ofNat]
    rw [div_div, div_div, mul_comm]
    norm_num
  · refine Eq.trans (saveBookData_total_obs _ i hi ?_).1 ?_
    · dsimp only
      rw [getD_set, if_pos ⟨rfl, hip⟩]
      exact hact
    · dsimp only
      rw [getD_set, if_pos ⟨rfl, hip⟩]
  · refine (saveBookData_total_obs _ i hi ?_).2
    dsimp only
    rw [getD_set, if_pos ⟨rfl, hip⟩]
    exact hact

theorem C8_commit_session_witness :
    ((saveCurrentBookSession { readingPre with accumulatedSessionMillis := 360000 } 360000).1.books.getD
        0 emptyBook).totalSeconds = 460 ∧
    ((saveCurrentBookSession { readingPre with accumulatedSessionMillis := 360000 } 360000).1.books.getD
        0 emptyBook).sessionCount = 1 ∧
    ((saveCurrentBookSession { readingPre with accumulatedSessionMillis := 360000 } 360000).1.books.getD
        0 emptyBook).lastRead = 360 ∧
    ((saveCurrentBookSession { readingPre with accumulatedSessionMillis := 360000 } 360000).1.bookPrefs.getULong
        (bookKey 0 ++ "_total") 0) = 460 := by
  have h := C8_commit_session { readingPre with accumulatedSessionMillis := 360000 } 360000 0
    (by decide) (by decide) (by decide) (by decide) (by decide)
  exact ⟨h.1.trans (by decide), h.2.1.trans (by decide),
         h.2.2.2.1.trans (by decide), h.2.2.2.2.1.trans (by decide)⟩

/-! ## Helper lemmas: adjust leaves all book fields but pomodoroCount alone -/

theorem adjust_books_totalSeconds (s : Sys) (m i : Nat) :
    ((saveAdaptivePomodoro s m).1.books.getD i emptyBook).totalSeconds
      = (s.books.getD i emptyBook).totalSeconds := by
  rcases adjust_books_cases s m i with h | h <;> rw [h]

theorem adjust_books_sessionCount (s : Sys) (m i : Nat) :
    ((saveAdaptivePomodoro s m).1.books.getD i emptyBook).sessionCount
      = (s.books.getD i emptyBook).sessionCount := by
  rcases adjust_books_cases s m i with h | h <;> rw [h]

theorem adjust_books_avg (s : Sys) (m i : Nat) :
    ((saveAdaptivePomodoro s m).1.books.getD i emptyBook).avgSessionMinutes
      = (s.books.getD i emptyBook).avgSessionMinutes := by
  rcases adjust_books_cases s m i with h | h <;> rw [h]

theorem adjust_books_lastRead (s : Sys) (m i : Nat) :
    ((saveAdaptivePomodoro s m).1.books.getD i emptyBook).lastRead
      = (s.books.getD i emptyBook).lastRead := by
  rcases adjust_books_cases s m i with h | h <;> rw [h]

theorem adjust_books_isActive (s : Sys) (m i : Nat) :
    ((saveAdaptivePomodoro s m).1.books.getD i emptyBook).isActive
      = (s.books.getD i emptyBook).isActive := by
  rcases adjust_books_cases s m i with h | h <;> rw [h]

/-! ## Claim C10 -/

/-- C10: the commit performed on entry into deep sleep adds the full
in-progress duration — the accumulated milliseconds plus, when Reading,
the running span since the session timer started, floored to whole
seconds — to the current book's total and refreshes its last-read
stamp, while leaving the book's sessionCount and avgSessionMinutes
exactly as they were. -/
theorem C10_sleep_commit (s : Sys) (now : Nat) (i : Nat)
    (hidx : s.currentBookIndex = Int.ofNat i) (hi : i < MAX_BOOKS)
    (hlen : s.books.length = MAX_BOOKS)
    (hstate : s.isReading = true ∨ s.isPaused = true) :
    ((enterSmartSleepPersist s now).1.books.getD i emptyBook).totalSeconds
        = (s.books.getD i emptyBook).totalSeconds
          + (s.accumulatedSessionMillis
              + (if s.isReading then now - s.sessionStartMillis else 0)) / 1000 ∧
    ((enterSmartSleepPersist s now).1.books.getD i emptyBook).lastRead = now / 1000 ∧
    ((enterSmartSleepPersist s now).1.books.getD i emptyBook).sessionCount
        = (s.books.getD i emptyBook).sessionCount ∧
    ((enterSmartSleepPersist s now).1.books.getD i emptyBook).avgSessionMinutes
        = (s.books.getD i emptyBook).avgSessionMinutes := by
  have hip : i < s.books.length := by rw [hlen]; exact hi
  dsimp only [enterSmartSleepPersist]
  rw [hidx]
  rw [if_pos ⟨by simp only [Int.ofNat_eq_natCast]; exact Int.natCast_nonneg i, hstate⟩]
  dsimp only
  rw [adjust_books_totalSeconds, adjust_books_lastRead, adjust_books_sessionCount,
      adjust_books_avg]
  rw [saveBookData_books]
  dsimp only
  rw [getD_set]
  rw [if_pos ⟨rfl, hip⟩]
  exact ⟨rfl, rfl, rfl, rfl⟩

theorem C10_sleep_commit_witness :
    ((enterSmartSleepPersist { readingPre with accumulatedSessionMillis := 30000 } 90000).1.books.getD
        0 emptyBook).totalSeconds = 220 ∧
    ((enterSmartSleepPersist { readingPre with accumulatedSessionMillis := 30000 } 90000).1.books.getD
        0 emptyBook).lastRead = 90 ∧
    ((enterSmartSleepPersist { readingPre with accumulatedSessionMillis := 30000 } 90000).1.books.getD
        0 emptyBook).sessionCount = 0 ∧
    ((enterSmartSleepPersist { readingPre with accumulatedSessionMillis := 30000 } 90000).1.books.getD
        0 emptyBook).avgSessionMinutes = Frac.ofNat 0 := by
  have h := C10_sleep_commit { readingPre with accumulatedSessionMillis := 30000 } 90000 0
    (by decide) (by decide) (by decide) (Or.inl (by decide))
  exact ⟨h.1.trans (by decide), h.2.1.trans (by decide),
         h.2.2.1.trans (by decide), h.2.2.2.trans (by decide)⟩

/-! ## Helper lemmas: projections of the session commit -/

theorem commit_currentBookIndex (s : Sys) (now : Nat) :
    (saveCurrentBookSession s now).1.currentBookIndex = s.currentBookIndex := by
  dsimp only [saveCurrentBookSession]
  split
  · rfl
  · split
    · rfl
    · rw [saveBookData_currentBookIndex]

theorem commit_adaptivePomodoroMillis (s : Sys) (now : Nat) :
    (saveCurrentBookSession s now).1.adaptivePomodoroMillis = s.adaptivePomodoroMillis := by
  dsimp only [saveCurrentBookSession]
  split
  · rfl
  · split
    · rfl
    · rw [(saveBookData_adaptive _ _).1]

theorem commit_books_length (s : Sys) (now : Nat) :
    (saveCurrentBookSession s now).1.books.length = s.books.length := by
  dsimp only [saveCurrentBookSession]
  split
  · rfl
  · split
    · rfl
    · rw [saveBookData_books]
      dsimp only
      rw [List.length_set]

theorem commit_books_isActive (s : Sys) (now : Nat) (i : Nat) :
    ((saveCurrentBookSession s now).1.books.getD i emptyBook).isActive
      = (s.books.getD i emptyBook).isActive := by
  dsimp only [saveCurrentBookSession]
  split
  · rfl
  · split
    · rfl
    · rw [saveBookData_books]
      dsimp only
      rw [getD_set]
      split
      · next hc =>
        obtain ⟨hji, _⟩ := hc
        subst hji
        rfl
      · rfl

theorem commit_events_of (s : Sys) (now : Nat) (i : Nat)
    (hidx : s.currentBookIndex = Int.ofNat i) (hi : i < MAX_BOOKS)
    (hlen : s.books.length = MAX_BOOKS)
    (hact : (s.books.getD i emptyBook).isActive = true)
    (hdur : s.accumulatedSessionMillis / 1000 ≠ 0) :
    (saveCurrentBookSession s now).2 = [Ev.commitWrite] := by
  have hip : i < s.books.length := by rw [hlen]; exact hi
  rw [commit_reduce s now i hidx hi hdur]
  exact (saveBookData_total_obs _ i hi
    (by dsimp only; rw [getD_set, if_pos ⟨rfl, hip⟩]; exact hact)).2

/-! ## Helper lemmas: adjust events for a completed session -/

theorem adjust_events_completed (s : Sys) (m : Nat) (i : Nat)
    (hidx : s.currentBookIndex = Int.ofNat i) (hi : i < MAX_BOOKS)
    (hlen : s.books.length = MAX_BOOKS)
    (hact : (s.books.getD i emptyBook).isActive = true)
    (hm : s.adaptivePomodoroMillis ≤ m)
    (hfloor : SIGNIFICANCE_FLOOR ≤ m) :
    (saveAdaptivePomodoro s m).2 = [Ev.timerAdjust, Ev.focusIncr, Ev.commitWrite] := by
  have hip : i < s.books.length := by rw [hlen]; exact hi
  have hrate : Frac.le (Frac.ofNat 1)
      (Frac.div (Frac.ofNat m) (Frac.ofNat s.adaptivePomodoroMillis)) :=
    Frac.one_le_div_ofNat m s.adaptivePomodoroMillis hm
  dsimp only [saveAdaptivePomodoro]
  rw [if_neg (by omega : ¬ m < SIGNIFICANCE_FLOOR)]
  rw [if_pos hrate]
  rw [hidx]
  rw [if_pos (by simp only [Int.ofNat_eq_natCast]; exact Int.natCast_nonneg i)]
  dsimp only
  simp only [Int.ofNat_eq_natCast, Int.toNat_ofNat]
  exact congrArg (fun l => [Ev.timerAdjust, Ev.focusIncr] ++ l)
    ((saveBookData_total_obs _ i hi
      (by dsimp only; rw [getD_set, if_pos ⟨rfl, hip⟩]; exact hact)).2)

/-! ## Claim C3 -/

/-- C3 counterexample: on a concrete completed session (2 minutes of
paused-accumulated time, 30 minutes of running span, 25-minute target)
the completion path's event trace violates the claimed order
commit ≺ timer-adjust ≺ focus-increment ≺ Resting: the first
focus-cycle increment precedes the session commit. -/
theorem C3_order_counterexample :
    ¬ claimedCompletionOrder
        (pomodoroCompletePath { readingPre with accumulatedSessionMillis := 120000 } 1800000).2 := by
  have htr : (pomodoroCompletePath { readingPre with accumulatedSessionMillis := 120000 } 1800000).2
      = [Ev.focusIncr, Ev.commitWrite, Ev.timerAdjust, Ev.focusIncr, Ev.commitWrite,
         Ev.enterResting] := by rfl
  rw [htr]
  unfold claimedCompletionOrder happensBefore
  decide

/-- C3 amended: on every completed session (attached active book, at
least one whole second accumulated, target within bounds and reached)
the completion path performs, in order: a focus-cycle increment, the
session commit (Library Store write), the Timer Model adjustment, a
second focus-cycle increment with its own Library Store write (inside
the adjustment, before the timer model is persisted), and last the
transition into Resting. -/
theorem C3_order_amended (s : Sys) (now : Nat) (i : Nat)
    (hidx : s.currentBookIndex = Int.ofNat i) (hi : i < MAX_BOOKS)
    (hlen : s.books.length = MAX_BOOKS)
    (hact : (s.books.getD i emptyBook).isActive = true)
    (hacc : 1000 ≤ s.accumulatedSessionMillis)
    (htb : targetInBounds s)
    (hdone : s.adaptivePomodoroMillis ≤ now - s.sessionStartMillis + s.accumulatedSessionMillis) :
    (pomodoroCompletePath s now).2 =
      [Ev.focusIncr, Ev.commitWrite, Ev.timerAdjust, Ev.focusIncr, Ev.commitWrite,
       Ev.enterResting] := by
  obtain ⟨htb1, htb2⟩ := htb
  have hip : i < s.books.length := by rw [hlen]; exact hi
  have hti : s.currentBookIndex.toNat = i := by
    rw [hidx]
    simp only [Int.ofNat_eq_natCast, Int.toNat_ofNat]
  dsimp only [pomodoroCompletePath]
  rw [hti]
  have h1 := commit_events_of
    { s with
        books :=
          s.books.set i
            ({ s.books.getD i emptyBook with
                pomodoroCount := (s.books.getD i emptyBook).pomodoroCount + 1 }) }
    now i hidx hi
    (by dsimp only; rw [List.length_set]; exact hlen)
    (by dsimp only; rw [getD_set, if_pos ⟨rfl, hip⟩]; exact hact)
    (by dsimp only; omega)
  dsimp only at h1
  rw [h1]
  have h2 := adjust_events_completed
    (saveCurrentBookSession
      { s with
          books :=
            s.books.set i
              ({ s.books.getD i emptyBook with
                  pomodoroCount := (s.books.getD i emptyBook).pomodoroCount + 1 }) }
      now).1
    (now - s.sessionStartMillis + s.accumulatedSessionMillis) i
    (by rw [commit_currentBookIndex]; exact hidx)
    hi
    (by rw [commit_books_length]; dsimp only; rw [List.length_set]; exact hlen)
    (by rw [commit_books_isActive]; dsimp only; rw [getD_set, if_pos ⟨rfl, hip⟩]; exact hact)
    (by rw [commit_adaptivePomodoroMillis]; dsimp only; exact hdone)
    (by simp only [SIGNIFICANCE_FLOOR]; omega)
  dsimp only at h2
  rw [h2]
  rfl

theorem C3_order_amended_witness :
    (pomodoroCompletePath { readingPre with accumulatedSessionMillis := 120000 } 1800000).2 =
      [Ev.focusIncr, Ev.commitWrite, Ev.timerAdjust, Ev.focusIncr, Ev.commitWrite,
       Ev.enterResting] :=
  C3_order_amended { readingPre with accumulatedSessionMillis := 120000 } 1800000 0
    (by decide) (by decide) (by decide) (by decide) (by decide)
    (by unfold targetInBounds; decide) (by decide)

/-! ## Claim C1 -/

/-- C1, evaluated at the failing input: completing a 30-minute session
against the 25-minute target (completion ratio 1.2) does multiply the
adaptive target by the 1.05 success growth factor (1500000 → 1575000 ms),
but increments the current book's pomodoroCount by TWO, not one — once
in the completion branch of `loop()` and a second time inside
`saveAdaptivePomodoro`. -/
theorem C1_completion_double_increment :
    ((pomodoroCompletePath readingPre 1800000).1.books.getD 0 emptyBook).pomodoroCount
        = (readingPre.books.getD 0 emptyBook).pomodoroCount + 2 ∧
    (readingPre.books.getD 0 emptyBook).pomodoroCount = 0 ∧
    readingPre.adaptivePomodoroMillis = 1500000 ∧
    (pomodoroCompletePath readingPre 1800000).1.adaptivePomodoroMillis = 1575000 := by
  decide

/-! ## Claim C2 -/

/-- C2, evaluated at the failing input: while Reading book A with a
10-minute running span (session timer started at 0, tag switch at
600000 ms) and no paused-accumulated time, detecting tag B commits
NOTHING to book A (its totalSeconds stays 100 instead of growing by the
600 elapsed seconds); the new book B is attached with accumulated
duration zero, but the session timer is not restarted
(sessionStartMillis stays 0 with isReading still true), so book A's
running span will later be credited to book B. -/
theorem C2_switch_drops_running_span :
    ((nfcDetect readingPre "04 bb" 600000).1.books.getD 0 emptyBook).totalSeconds
        = (readingPre.books.getD 0 emptyBook).totalSeconds ∧
    (readingPre.books.getD 0 emptyBook).totalSeconds = 100 ∧
    (nfcDetect readingPre "04 bb" 600000).1.currentBookIndex = 1 ∧
    (nfcDetect readingPre "04 bb" 600000).1.accumulatedSessionMillis = 0 ∧
    (nfcDetect readingPre "04 bb" 600000).1.sessionStartMillis = 0 ∧
    (nfcDetect readingPre "04 bb" 600000).1.isReading = true := by
  decide

/-! ## Claim C9 -/

/-- C9 counterexample: with book "04 aa" attached (sessionCount 3,
5 s of accumulated session time) but the NFC info display no longer
showing, a re-detection of the SAME identifier is processed as a new
event: the book-switch path runs on the same book, committing and
resetting the accumulated duration and raising sessionCount from 3 to 5
(once in the commit, once at the re-attach) — not "still present". -/
theorem C9_redetect_counterexample :
    (({ readingPre with
          isShowingNFC := false, accumulatedSessionMillis := 5000,
          books := padBooks [{ bookA with sessionCount := 3 }, bookB] } : Sys).currentBookUID
        = "04 aa") ∧
    ((nfcDetect
        { readingPre with
            isShowingNFC := false, accumulatedSessionMillis := 5000,
            books := padBooks [{ bookA with sessionCount := 3 }, bookB] }
        "04 aa" 60000).1.books.getD 0 emptyBook).sessionCount = 5 ∧
    (nfcDetect
        { readingPre with
            isShowingNFC := false, accumulatedSessionMillis := 5000,
            books := padBooks [{ bookA with sessionCount := 3 }, bookB] }
        "04 aa" 60000).1.accumulatedSessionMillis = 0 := by
  decide

/-- C9 amended: a repeated detection of the currently attached book's
identifier is treated as "still present" — no new session, no reset of
the accumulated duration, no sessionCount change, no event — only while
the NFC info display is still active (`isShowingNFC`); after the
display's 10-second timeout clears that flag, the next detection of the
same identifier re-runs the book-switch path. -/
theorem C9_same_tag_still_present (s : Sys) (uid : String) (now : Nat)
    (hsame : uid = s.currentBookUID) (hshow : s.isShowingNFC = true) :
    nfcDetect s uid now = (s, []) := by
  dsimp only [nfcDetect]
  rw [if_neg (not_or.mpr ⟨fun h => h hsame, by simp [hshow]⟩)]

theorem C9_same_tag_still_present_witness :
    "04 aa" = readingPre.currentBookUID ∧ readingPre.isShowingNFC = true ∧
      nfcDetect readingPre "04 aa" 999 = (readingPre, []) :=
  ⟨by decide, by decide, C9_same_tag_still_present readingPre "04 aa" 999 (by decide) (by decide)⟩

/-! ## Helper lemmas: saveBookData and the store-consistency components -/

theorem saveBookData_count (s : Sys) (idx : Int) :
    (saveBookData s idx).1.bookPrefs.getIntD "count" 0 = s.bookPrefs.getIntD "count" 0 := by
  dsimp only [saveBookData]
  split
  · rfl
  · next hrange =>
    split
    · rfl
    · have hi : idx.toNat < MAX_BOOKS := by
        simp only [MAX_BOOKS] at hrange ⊢
        omega
      rw [Prefs.getIntD_put_ne _ _ _ _ _ (Ne.symm (count_ne_slotKey ⟨idx.toNat, hi⟩ "_avg" (by decide)))]
      rw [Prefs.getIntD_put_ne _ _ _ _ _ (Ne.symm (count_ne_slotKey ⟨idx.toNat, hi⟩ "_pomodoros" (by decide)))]
      rw [Prefs.getIntD_put_ne _ _ _ _ _ (Ne.symm (count_ne_slotKey ⟨idx.toNat, hi⟩ "_sessions" (by decide)))]
      rw [Prefs.getIntD_put_ne _ _ _ _ _ (Ne.symm (count_ne_slotKey ⟨idx.toNat, hi⟩ "_last" (by decide)))]
      rw [Prefs.getIntD_put_ne _ _ _ _ _ (Ne.symm (count_ne_slotKey ⟨idx.toNat, hi⟩ "_total" (by decide)))]
      rw [Prefs.getIntD_put_ne _ _ _ _ _ (Ne.symm (count_ne_slotKey ⟨idx.toNat, hi⟩ "_name" (by decide)))]
      rw [Prefs.getIntD_put_ne _ _ _ _ _ (Ne.symm (count_ne_slotKey ⟨idx.toNat, hi⟩ "_uid" (by decide)))]

theorem saveBookData_total_consistent (s : Sys) (idx : Int) (j : Nat) (hj : j < MAX_BOOKS)
    (h : s.bookPrefs.getULong (bookKey j ++ "_total") 0 = (s.books.getD j emptyBook).totalSeconds) :
    (saveBookData s idx).1.bookPrefs.getULong (bookKey j ++ "_total") 0
      = ((saveBookData s idx).1.books.getD j emptyBook).totalSeconds := by
  rw [saveBookData_books]
  dsimp only [saveBookData]
  split
  · exact h
  · next hrange =>
    have hi : idx.toNat < MAX_BOOKS := by
      simp only [MAX_BOOKS] at hrange ⊢
      omega
    split
    · exact h
    · next hactive =>
      by_cases hji : j = idx.toNat
      · rw [← hji]
        rw [Prefs.getULong_put_ne _ _ _ _ _
              (slotKey_ne_suffix j hj "_avg" "_total" (by decide) (by decide) (by decide))]
        rw [Prefs.getULong_put_ne _ _ _ _ _
              (slotKey_ne_suffix j hj "_pomodoros" "_total" (by decide) (by decide) (by decide))]
        rw [Prefs.getULong_put_ne _ _ _ _ _
              (slotKey_ne_suffix j hj "_sessions" "_total" (by decide) (by decide) (by decide))]
        rw [Prefs.getULong_put_ne _ _ _ _ _
              (slotKey_ne_suffix j hj "_last" "_total" (by decide) (by decide) (by decide))]
        rw [Prefs.getULong_put_u]
      · rw [Prefs.getULong_put_ne _ _ _ _ _
              (slotKey_ne_slot idx.toNat j hi hj (fun e => hji e.symm) "_avg" "_total" (by decide) (by decide))]
        rw [Prefs.getULong_put_ne _ _ _ _ _
              (slotKey_ne_slot idx.toNat j hi hj (fun e => hji e.symm) "_pomodoros" "_total" (by decide) (by decide))]
        rw [Prefs.getULong_put_ne _ _ _ _ _
              (slotKey_ne_slot idx.toNat j hi hj (fun e => hji e.symm) "_sessions" "_total" (by decide) (by decide))]
        rw [Prefs.getULong_put_ne _ _ _ _ _
              (slotKey_ne_slot idx.toNat j hi hj (fun e => hji e.symm) "_last" "_total" (by decide) (by decide))]
        rw [Prefs.getULong_put_ne _ _ _ _ _
              (slotKey_ne_slot idx.toNat j hi hj (fun e => hji e.symm) "_total" "_total" (by decide) (by decide))]
        rw [Prefs.getULong_put_ne _ _ _ _ _
              (slotKey_ne_slot idx.toNat j hi hj (fun e => hji e.symm) "_name" "_total" (by decide) (by decide))]
        rw [Prefs.getULong_put_ne _ _ _ _ _
              (slotKey_ne_slot idx.toNat j hi hj (fun e => hji e.symm) "_uid" "_total" (by decide) (by decide))]
        exact h

theorem saveBookData_isKey_uid (s : Sys) (idx : Int) (j : Nat) (hj : j < MAX_BOOKS)
    (h : s.bookPrefs.isKey (bookKey j ++ "_uid") = true) :
    (saveBookData s idx).1.bookPrefs.isKey (bookKey j ++ "_uid") = true := by
  dsimp only [saveBookData]
  split
  · exact h
  · next hrange =>
    have hi : idx.toNat < MAX_BOOKS := by
      simp only [MAX_BOOKS] at hrange ⊢
      omega
    split
    · exact h
    · by_cases hji : j = idx.toNat
      · rw [← hji]
        rw [Prefs.isKey_put_ne _ _ _ _
              (slotKey_ne_suffix j hj "_avg" "_uid" (by decide) (by decide) (by decide))]
        rw [Prefs.isKey_put_ne _ _ _ _
              (slotKey_ne_suffix j hj "_pomodoros" "_uid" (by decide) (by decide) (by decide))]
        rw [Prefs.isKey_put_ne _ _ _ _
              (slotKey_ne_suffix j hj "_sessions" "_uid" (by decide) (by decide) (by decide))]
        rw [Prefs.isKey_put_ne _ _ _ _
              (slotKey_ne_suffix j hj "_last" "_uid" (by decide) (by decide) (by decide))]
        rw [Prefs.isKey_put_ne _ _ _ _
              (slotKey_ne_suffix j hj "_total" "_uid" (by decide) (by decide) (by decide))]
        rw [Prefs.isKey_put_ne _ _ _ _
              (slotKey_ne_suffix j hj "_name" "_uid" (by decide) (by decide) (by decide))]
        rw [Prefs.isKey_put_self]
      · rw [Prefs.isKey_put_ne _ _ _ _
              (slotKey_ne_slot idx.toNat j hi hj (fun e => hji e.symm) "_avg" "_uid" (by decide) (by decide))]
        rw [Prefs.isKey_put_ne _ _ _ _
              (slotKey_ne_slot idx.toNat j hi hj (fun e => hji e.symm) "_pomodoros" "_uid" (by decide) (by decide))]
        rw [Prefs.isKey_put_ne _ _ _ _
              (slotKey_ne_slot idx.toNat j hi hj (fun e => hji e.symm) "_sessions" "_uid" (by decide) (by decide))]
        rw [Prefs.isKey_put_ne _ _ _ _
              (slotKey_ne_slot idx.toNat j hi hj (fun e => hji e.symm) "_last" "_uid" (by decide) (by decide))]
        rw [Prefs.isKey_put_ne _ _ _ _
              (slotKey_ne_slot idx.toNat j hi hj (fun e => hji e.symm) "_total" "_uid" (by decide) (by decide))]
        rw [Prefs.isKey_put_ne _ _ _ _
              (slotKey_ne_slot idx.toNat j hi hj (fun e => hji e.symm) "_name" "_uid" (by decide) (by decide))]
        rw [Prefs.isKey_put_ne _ _ _ _
              (slotKey_ne_slot idx.toNat j hi hj (fun e => hji e.symm) "_uid" "_uid" (by decide) (by decide))]
        exact h

/-! ## Helper lemmas: adjust preserves the store-consistency components -/

theorem adjust_currentBookIndex (s : Sys) (m : Nat) :
    (saveAdaptivePomodoro s m).1.currentBookIndex = s.currentBookIndex := by
  dsimp only [saveAdaptivePomodoro]
  split
  · rfl
  · split
    · split
      · rw [saveBookData_currentBookIndex]
      · rfl
    · split
      · rfl
      · split
        · rfl
        · rfl

theorem adjust_books_length (s : Sys) (m : Nat) :
    (saveAdaptivePomodoro s m).1.books.length = s.books.length := by
  dsimp only [saveAdaptivePomodoro]
  split
  · rfl
  · split
    · split
      · rw [saveBookData_books]
        dsimp only
        rw [List.length_set]
      · rfl
    · split
      · rfl
      · split
        · rfl
        · rfl

theorem adjust_count (s : Sys) (m : Nat) :
    (saveAdaptivePomodoro s m).1.bookPrefs.getIntD "count" 0
      = s.bookPrefs.getIntD "count" 0 := by
  dsimp only [saveAdaptivePomodoro]
  split
  · rfl
  · split
    · split
      · rw [saveBookData_count]
      · rfl
    · split
      · rfl
      · split
        · rfl
        · rfl

theorem adjust_isKey_uid (s : Sys) (m : Nat) (j : Nat) (hj : j < MAX_BOOKS)
    (h : s.bookPrefs.isKey (bookKey j ++ "_uid") = true) :
    (saveAdaptivePomodoro s m).1.bookPrefs.isKey (bookKey j ++ "_uid") = true := by
  dsimp only [saveAdaptivePomodoro]
  split
  · exact h
  · split
    · split
      · exact saveBookData_isKey_uid _ _ j hj h
      · exact h
    · split
      · exact h
      · split
        · exact h
        · exact h

theorem adjust_total_consistent (s : Sys) (m : Nat) (j : Nat) (hj : j < MAX_BOOKS)
    (h : s.bookPrefs.getULong (bookKey j ++ "_total") 0 = (s.books.getD j emptyBook).totalSeconds) :
    (saveAdaptivePomodoro s m).1.bookPrefs.getULong (bookKey j ++ "_total") 0
      = ((saveAdaptivePomodoro s m).1.books.getD j emptyBook).totalSeconds := by
  dsimp only [saveAdaptivePomodoro]
  split
  · exact h
  · split
    · split
      · refine saveBookData_total_consistent _ _ j hj ?_
        dsimp only
        rw [getD_set]
        split
        · next hc =>
          rw [hc.1]
          exact h
        · exact h
      · exact h
    · split
      · exact h
      · split
        · exact h
        · exact h

theorem adjust_pom_consistent (s : Sys) (m : Nat)
    (h : s.prefs.getULong "pomodoro" (25 * 60000) = s.adaptivePomodoroMillis) :
    (saveAdaptivePomodoro s m).1.prefs.getULong "pomodoro" (25 * 60000)
      = (saveAdaptivePomodoro s m).1.adaptivePomodoroMillis := by
  dsimp only [saveAdaptivePomodoro]
  split
  · exact h
  · rw [Prefs.getULong_put_ne _ _ _ _ _ (by decide : "adaptCount" ≠ "pomodoro")]
    rw [Prefs.getULong_put_ne _ _ _ _ _ (by decide : "adaptTime" ≠ "pomodoro")]
    rw [Prefs.getULong_put_u]

/-! ## Helper lemmas: the session commit preserves the consistency components -/

theorem commit_prefs (s : Sys) (now : Nat) :
    (saveCurrentBookSession s now).1.prefs = s.prefs := by
  dsimp only [saveCurrentBookSession]
  split
  · rfl
  · split
    · rfl
    · rw [saveBookData_prefs]

theorem commit_count (s : Sys) (now : Nat) :
    (saveCurrentBookSession s now).1.bookPrefs.getIntD "count" 0
      = s.bookPrefs.getIntD "count" 0 := by
  dsimp only [saveCurrentBookSession]
  split
  · rfl
  · split
    · rfl
    · rw [saveBookData_count]

theorem commit_isKey_uid (s : Sys) (now : Nat) (j : Nat) (hj : j < MAX_BOOKS)
    (h : s.bookPrefs.isKey (bookKey j ++ "_uid") = true) :
    (saveCurrentBookSession s now).1.bookPrefs.isKey (bookKey j ++ "_uid") = true := by
  dsimp only [saveCurrentBookSession]
  split
  · exact h
  · split
    · exact h
    · exact saveBookData_isKey_uid _ _ j hj h

theorem commit_total_consistent (s : Sys) (now : Nat) (j : Nat) (hj : j < MAX_BOOKS)
    (hlen : s.books.length = MAX_BOOKS)
    (hcur : s.currentBookIndex = -1 ∨
      (0 ≤ s.currentBookIndex ∧ s.currentBookIndex < (MAX_BOOKS : Int) ∧
       (s.books.getD s.currentBookIndex.toNat emptyBook).isActive = true))
    (h : s.bookPrefs.getULong (bookKey j ++ "_total") 0 = (s.books.getD j emptyBook).totalSeconds) :
    (saveCurrentBookSession s now).1.bookPrefs.getULong (bookKey j ++ "_total") 0
      = ((saveCurrentBookSession s now).1.books.getD j emptyBook).totalSeconds := by
  dsimp only [saveCurrentBookSession]
  split
  · exact h
  · next hrange =>
    split
    · exact h
    · have hcuract : (s.books.getD s.currentBookIndex.toNat emptyBook).isActive = true := by
        rcases hcur with hc | hc
        · exact absurd (by rw [hc]; decide) (fun e => hrange (Or.inl e))
        · exact hc.2.2
      have hip : s.currentBookIndex.toNat < s.books.length := by
        rw [hlen]
        simp only [MAX_BOOKS] at hrange ⊢
        omega
      by_cases hji : j = s.currentBookIndex.toNat
      · -- the overwritten slot: the write-through stores the new in-memory total
        rw [saveBookData_books]
        dsimp only
        rw [hji]
        refine saveBookData_total_obs2 _ _ (by rw [hlen] at hip; exact hip)
          (by simp only [MAX_BOOKS] at hrange; omega) ?_
        dsimp only
        rw [getD_set, if_pos ⟨rfl, hip⟩]
        exact hcuract
      · refine saveBookData_total_consistent _ _ j hj ?_
        dsimp only
        rw [getD_set]
        rw [if_neg (fun hc => hji hc.1.symm)]
        exact h

theorem saveBookData_isKey_uid_self (s : Sys) (idx : Int) (hi : idx.toNat < MAX_BOOKS)
    (hnn : 0 ≤ idx)
    (hact : (s.books.getD idx.toNat emptyBook).isActive = true) :
    (saveBookData s idx).1.bookPrefs.isKey (bookKey idx.toNat ++ "_uid") = true := by
  dsimp only [saveBookData]
  rw [if_neg (by simp only [MAX_BOOKS] at hi ⊢; omega)]
  rw [if_neg (by simp only [hact]; decide)]
  rw [Prefs.isKey_put_ne _ _ _ _
        (slotKey_ne_suffix idx.toNat hi "_avg" "_uid" (by decide) (by decide) (by decide))]
  rw [Prefs.isKey_put_ne _ _ _ _
        (slotKey_ne_suffix idx.toNat hi "_pomodoros" "_uid" (by decide) (by decide) (by decide))]
  rw [Prefs.isKey_put_ne _ _ _ _
        (slotKey_ne_suffix idx.toNat hi "_sessions" "_uid" (by decide) (by decide) (by decide))]
  rw [Prefs.isKey_put_ne _ _ _ _
        (slotKey_ne_suffix idx.toNat hi "_last" "_uid" (by decide) (by decide) (by decide))]
  rw [Prefs.isKey_put_ne _ _ _ _
        (slotKey_ne_suffix idx.toNat hi "_total" "_uid" (by decide) (by decide) (by decide))]
  rw [Prefs.isKey_put_ne _ _ _ _
        (slotKey_ne_suffix idx.toNat hi "_name" "_uid" (by decide) (by decide) (by decide))]
  rw [Prefs.isKey_put_self]

theorem commit_books_frame (s : Sys) (now : Nat) (i : Nat)
    (hne : i ≠ s.currentBookIndex.toNat) :
    (saveCurrentBookSession s now).1.books.getD i emptyBook = s.books.getD i emptyBook := by
  dsimp only [saveCurrentBookSession]
  split
  · rfl
  · split
    · rfl
    · rw [saveBookData_books]
      dsimp only
      rw [getD_set]
      rw [if_neg (fun hc => hne hc.1.symm)]

theorem commit_noop_noBook (s : Sys) (now : Nat) (h : s.currentBookIndex < 0) :
    saveCurrentBookSession s now = (s, []) := by
  dsimp only [saveCurrentBookSession]
  rw [if_pos (Or.inl h)]

/-! ## StoreInv preservation, operation by operation -/

theorem adjust_StoreInv (s : Sys) (m : Nat) (h : StoreInv s) :
    StoreInv (saveAdaptivePomodoro s m).1 := by
  unfold StoreInv at h ⊢
  obtain ⟨h1, h2, h3, h4, h5, h6, h7, h8⟩ := h
  have hacs : activeCountStored (saveAdaptivePomodoro s m).1 = activeCountStored s := by
    unfold activeCountStored
    rw [adjust_count]
  refine ⟨?_, ?_, ?_, ?_, ?_, ?_, ?_, ?_⟩
  · rw [adjust_books_length]
    exact h1
  · rw [adjust_count, hacs]
    exact h2
  · rw [hacs]
    exact h3
  · intro i hi
    rw [adjust_books_isActive, hacs]
    exact h4 i hi
  · intro i hi
    rw [hacs] at hi
    exact ⟨adjust_isKey_uid s m i (lt_of_lt_of_le hi h3) (h5 i hi).1,
           adjust_total_consistent s m i (lt_of_lt_of_le hi h3) (h5 i hi).2⟩
  · intro i hi1 hi2
    rw [hacs] at hi2
    rw [adjust_books_totalSeconds]
    exact h6 i hi1 hi2
  · rcases h7 with h7 | h7
    · exact Or.inl (by rw [adjust_currentBookIndex]; exact h7)
    · refine Or.inr ⟨?_, ?_, ?_⟩
      · rw [adjust_currentBookIndex]
        exact h7.1
      · rw [adjust_currentBookIndex]
        exact h7.2.1
      · rw [adjust_currentBookIndex, adjust_books_isActive]
        exact h7.2.2
  · exact adjust_pom_consistent s m h8

theorem commit_StoreInv (s : Sys) (now : Nat) (h : StoreInv s) :
    StoreInv (saveCurrentBookSession s now).1 := by
  unfold StoreInv at h ⊢
  obtain ⟨h1, h2, h3, h4, h5, h6, h7, h8⟩ := h
  have hacs : activeCountStored (saveCurrentBookSession s now).1 = activeCountStored s := by
    unfold activeCountStored
    rw [commit_count]
  refine ⟨?_, ?_, ?_, ?_, ?_, ?_, ?_, ?_⟩
  · rw [commit_books_length]
    exact h1
  · rw [commit_count, hacs]
    exact h2
  · rw [hacs]
    exact h3
  · intro i hi
    rw [commit_books_isActive, hacs]
    exact h4 i hi
  · intro i hi
    rw [hacs] at hi
    exact ⟨commit_isKey_uid s now i (lt_of_lt_of_le hi h3) (h5 i hi).1,
           commit_total_consistent s now i (lt_of_lt_of_le hi h3) h1 h7 (h5 i hi).2⟩
  · intro i hi1 hi2
    rw [hacs] at hi2
    by_cases hic : i = s.currentBookIndex.toNat
    · rcases h7 with h7 | h7
      · rw [commit_noop_noBook s now (by rw [h7]; decide)]
        exact h6 i hi1 hi2
      · exfalso
        have hact := h7.2.2
        rw [← hic] at hact
        have := h4 i hi1
        rw [hact] at this
        have : i < activeCountStored s := by
          have hd := this.symm
          exact of_decide_eq_true hd
        omega
    · rw [commit_books_frame s now i hic]
      exact h6 i hi1 hi2
  · rcases h7 with h7 | h7
    · exact Or.inl (by rw [commit_currentBookIndex]; exact h7)
    · refine Or.inr ⟨?_, ?_, ?_⟩
      · rw [commit_currentBookIndex]
        exact h7.1
      · rw [commit_currentBookIndex]
        exact h7.2.1
      · rw [commit_currentBookIndex, commit_books_isActive]
        exact h7.2.2
  · rw [commit_prefs, commit_adaptivePomodoroMillis]
    exact h8

theorem set_pomCount_StoreInv (s : Sys) (h : StoreInv s) :
    StoreInv
      { s with
          books :=
            s.books.set s.currentBookIndex.toNat
              ({ s.books.getD s.currentBookIndex.toNat emptyBook with
                  pomodoroCount :=
                    (s.books.getD s.currentBookIndex.toNat emptyBook).pomodoroCount + 1 }) } := by
  unfold StoreInv at h ⊢
  obtain ⟨h1, h2, h3, h4, h5, h6, h7, h8⟩ := h
  refine ⟨?_, h2, h3, ?_, ?_, ?_, ?_, h8⟩
  · dsimp only
    rw [List.length_set]
    exact h1
  · intro i hi
    dsimp only
    rw [getD_set]
    split
    · next hc =>
      rw [hc.1]
      exact h4 i hi
    · exact h4 i hi
  · intro i hi
    refine ⟨(h5 i hi).1, ?_⟩
    dsimp only
    rw [getD_set]
    split
    · next hc =>
      rw [hc.1]
      exact (h5 i hi).2
    · exact (h5 i hi).2
  · intro i hi1 hi2
    dsimp only
    rw [getD_set]
    split
    · next hc =>
      rw [hc.1]
      exact h6 i hi1 hi2
    · exact h6 i hi1 hi2
  · rcases h7 with h7 | h7
    · exact Or.inl h7
    · refine Or.inr ⟨h7.1, h7.2.1, ?_⟩
      dsimp only
      rw [getD_set]
      split
      · exact h7.2.2
      · exact h7.2.2

theorem complete_StoreInv (s : Sys) (now : Nat) (h : StoreInv s) :
    StoreInv (pomodoroCompletePath s now).1 := by
  dsimp only [pomodoroCompletePath]
  exact adjust_StoreInv _ _ (commit_StoreInv _ now (set_pomCount_StoreInv s h))

theorem setCur_save_StoreInv (s : Sys) (bNew : Book) (h : StoreInv s)
    (hnn : 0 ≤ s.currentBookIndex)
    (hact : bNew.isActive = (s.books.getD s.currentBookIndex.toNat emptyBook).isActive) :
    StoreInv
      (saveBookData
        { s with books := s.books.set s.currentBookIndex.toNat bNew }
        s.currentBookIndex).1 := by
  unfold StoreInv at h ⊢
  obtain ⟨h1, h2, h3, h4, h5, h6, h7, h8⟩ := h
  have hin : s.currentBookIndex < (MAX_BOOKS : Int) ∧
      (s.books.getD s.currentBookIndex.toNat emptyBook).isActive = true := by
    rcases h7 with h7 | h7
    · exact absurd hnn (by rw [h7]; decide)
    · exact ⟨h7.2.1, h7.2.2⟩
  have hti : s.currentBookIndex.toNat < MAX_BOOKS := by
    have := hin.1
    simp only [MAX_BOOKS] at this ⊢
    omega
  have hip : s.currentBookIndex.toNat < s.books.length := by
    rw [h1]
    exact hti
  have hcn : s.currentBookIndex.toNat < activeCountStored s := by
    have hp := h4 _ hti
    rw [hin.2] at hp
    exact of_decide_eq_true hp.symm
  have hacs : activeCountStored
      (saveBookData { s with books := s.books.set s.currentBookIndex.toNat bNew }
        s.currentBookIndex).1 = activeCountStored s := by
    unfold activeCountStored
    rw [saveBookData_count]
  refine ⟨?_, ?_, ?_, ?_, ?_, ?_, ?_, ?_⟩
  · rw [saveBookData_books]
    dsimp only
    rw [List.length_set]
    exact h1
  · rw [saveBookData_count, hacs]
    exact h2
  · rw [hacs]
    exact h3
  · intro i hi
    rw [hacs, saveBookData_books]
    dsimp only
    rw [getD_set]
    split
    · next hc =>
      rw [hact, hc.1]
      exact h4 i hi
    · exact h4 i hi
  · intro i hi
    rw [hacs] at hi
    constructor
    · by_cases hc : i = s.currentBookIndex.toNat
      · rw [hc]
        refine saveBookData_isKey_uid_self _ _ hti hnn ?_
        dsimp only
        rw [getD_set, if_pos ⟨rfl, hip⟩]
        rw [hact]
        exact hin.2
      · exact saveBookData_isKey_uid _ _ i (lt_of_lt_of_le hi h3) (h5 i hi).1
    · by_cases hc : i = s.currentBookIndex.toNat
      · rw [saveBookData_books]
        dsimp only
        rw [hc]
        refine saveBookData_total_obs2 _ _ hti hnn ?_
        dsimp only
        rw [getD_set, if_pos ⟨rfl, hip⟩]
        rw [hact]
        exact hin.2
      · refine saveBookData_total_consistent _ _ i (lt_of_lt_of_le hi h3) ?_
        dsimp only
        rw [getD_set, if_neg (fun hc2 => hc hc2.1.symm)]
        exact (h5 i hi).2
  · intro i hi1 hi2
    rw [hacs] at hi2
    have hne : i ≠ s.currentBookIndex.toNat := by omega
    rw [saveBookData_books]
    dsimp only
    rw [getD_set, if_neg (fun hc2 => hne hc2.1.symm)]
    exact h6 i hi1 hi2
  · refine Or.inr ⟨?_, ?_, ?_⟩
    · rw [saveBookData_currentBookIndex]
      exact hnn
    · rw [saveBookData_currentBookIndex]
      exact hin.1
    · rw [saveBookData_currentBookIndex, saveBookData_books]
      dsimp only
      rw [getD_set, if_pos ⟨rfl, hip⟩]
      rw [hact]
      exact hin.2
  · rw [saveBookData_prefs, (saveBookData_adaptive _ _).1]
    exact h8

theorem sleep_StoreInv (s : Sys) (now : Nat) (h : StoreInv s) :
    StoreInv (enterSmartSleepPersist s now).1 := by
  dsimp only [enterSmartSleepPersist]
  split
  · next hcond =>
    have hw := setCur_save_StoreInv s
      ({ s.books.getD s.currentBookIndex.toNat emptyBook with
          totalSeconds := (s.books.getD s.currentBookIndex.toNat emptyBook).totalSeconds
            + (s.accumulatedSessionMillis
                + (if s.isReading then now - s.sessionStartMillis else 0)) / 1000,
          lastRead := now / 1000 })
      h hcond.1 rfl
    have ha := adjust_StoreInv _
      (s.accumulatedSessionMillis + (if s.isReading then now - s.sessionStartMillis else 0)) hw
    unfold StoreInv at ha ⊢
    obtain ⟨a1, a2, a3, a4, a5, a6, a7, a8⟩ := ha
    refine ⟨a1, a2, a3, a4, a5, a6, a7, ?_⟩
    rw [Prefs.getULong_put_ne _ _ _ _ _ (by decide : "lastBookIdx" ≠ "pomodoro")]
    rw [Prefs.getULong_put_ne _ _ _ _ _ (by decide : "totalSecs" ≠ "pomodoro")]
    exact a8
  · unfold StoreInv at h ⊢
    obtain ⟨h1, h2, h3, h4, h5, h6, h7, h8⟩ := h
    refine ⟨h1, h2, h3, h4, h5, h6, h7, ?_⟩
    rw [Prefs.getULong_put_ne _ _ _ _ _ (by decide : "lastBookIdx" ≠ "pomodoro")]
    exact h8

theorem Prefs.getIntD_put_i (p : Prefs) (k : String) (v : Int) (d : Int) :
    (p.put k (PrefVal.i v)).getIntD k d = v := by
  simp [Prefs.getIntD, Prefs.get_put_self]

theorem filter_length_set_newActive (l : List Book) (n : Nat) (b : Book)
    (hlen10 : l.length = MAX_BOOKS)
    (hb : b.isActive = true)
    (hn : n < MAX_BOOKS)
    (h4 : ∀ i, i < MAX_BOOKS → (l.getD i emptyBook).isActive = decide (i < n)) :
    ((l.set n b).filter (fun x => x.isActive)).length = n + 1 := by
  apply length_filter_isActive _ (n + 1)
  · intro i hi
    rw [List.length_set, hlen10] at hi
    rw [getD_set]
    split
    · next hc =>
      rw [hb, ← hc.1]
      simp
    · next hc =>
      have hne : n ≠ i := fun e => hc ⟨e, by rw [hlen10]; exact hn⟩
      rw [h4 i hi]
      exact decide_eq_decide.mpr (by omega)
  · rw [List.length_set, hlen10]
    simp only [MAX_BOOKS] at hn ⊢
    omega

theorem saveBookData_isKey_uid_self2 (s : Sys) (i : Nat) (hi : i < MAX_BOOKS)
    (hact : (s.books.getD i emptyBook).isActive = true) :
    (saveBookData s (Int.ofNat i)).1.bookPrefs.isKey (bookKey i ++ "_uid") = true := by
  have h0 := saveBookData_isKey_uid_self s (Int.ofNat i)
    (by simpa [Int.ofNat_eq_natCast] using hi)
    (by simp [Int.ofNat_eq_natCast])
    (by simpa [Int.ofNat_eq_natCast] using hact)
  simpa [Int.ofNat_eq_natCast] using h0

theorem set_agree_StoreInv (s : Sys) (j : Nat) (bNew : Book) (h : StoreInv s)
    (hact : bNew.isActive = (s.books.getD j emptyBook).isActive)
    (htot : bNew.totalSeconds = (s.books.getD j emptyBook).totalSeconds) :
    StoreInv { s with books := s.books.set j bNew } := by
  unfold StoreInv at h ⊢
  obtain ⟨h1, h2, h3, h4, h5, h6, h7, h8⟩ := h
  refine ⟨?_, h2, h3, ?_, ?_, ?_, ?_, h8⟩
  · dsimp only
    rw [List.length_set]
    exact h1
  · intro i hi
    dsimp only
    rw [getD_set]
    split
    · next hc =>
      rw [hact, hc.1]
      exact h4 i hi
    · exact h4 i hi
  · intro i hi
    refine ⟨(h5 i hi).1, ?_⟩
    dsimp only
    rw [getD_set]
    split
    · next hc =>
      rw [htot, hc.1]
      exact (h5 i hi).2
    · exact (h5 i hi).2
  · intro i hi1 hi2
    dsimp only
    rw [getD_set]
    split
    · next hc =>
      rw [htot, hc.1]
      exact h6 i hi1 hi2
    · exact h6 i hi1 hi2
  · rcases h7 with h7 | h7
    · exact Or.inl h7
    · refine Or.inr ⟨h7.1, h7.2.1, ?_⟩
      dsimp only
      rw [getD_set]
      split
      · next hc =>
        rw [hact, hc.1]
        exact h7.2.2
      · exact h7.2.2

theorem attach_StoreInv (s : Sys) (idx : Int) (uid : String)
    (h : StoreInv s) (h0 : 0 ≤ idx) (h10 : idx < (MAX_BOOKS : Int))
    (hact : (s.books.getD idx.toNat emptyBook).isActive = true) :
    StoreInv { s with currentBookIndex := idx, currentBookUID := uid,
                      bookChanged := true, accumulatedSessionMillis := 0 } := by
  unfold StoreInv at h ⊢
  obtain ⟨h1, h2, h3, h4, h5, h6, h7, h8⟩ := h
  exact ⟨h1, h2, h3, h4, h5, h6, Or.inr ⟨h0, h10, hact⟩, h8⟩

theorem lastActivity_StoreInv (s : Sys) (v : Nat) (h : StoreInv s) :
    StoreInv { s with lastActivityTime := v } := by
  unfold StoreInv at h ⊢
  exact h

theorem displayBookInfo_StoreInv (s : Sys) (idx : Int) (now : Nat) (h : StoreInv s) :
    StoreInv (displayBookInfo s idx now) := by
  dsimp only [displayBookInfo]
  split
  · exact h
  · unfold StoreInv at h ⊢
    exact h

theorem findBookByUID_found (books : List Book) (uid : String) (i : Nat)
    (hfi : books.findIdx? (fun b => b.isActive && b.uid == uid) = some i) :
    findBookByUID books uid = Int.ofNat i ∧ i < books.length ∧
    (books.getD i emptyBook).isActive = true := by
  obtain ⟨hlen, hp, _⟩ := List.findIdx?_eq_some_iff_getElem.mp hfi
  refine ⟨?_, hlen, ?_⟩
  · unfold findBookByUID
    rw [hfi]
  · have hpb : ((books.getD i emptyBook).isActive
        && ((books.getD i emptyBook).uid == uid)) = true := by
      rw [List.getD_eq_getElem?_getD, List.getElem?_eq_getElem hlen]
      exact hp
    exact (Bool.and_eq_true _ _).mp hpb |>.1

theorem StoreInv_after_add (s t : Sys) (b : Book) (n : Nat)
    (hb : b.isActive = true)
    (hn : n < MAX_BOOKS) (hInv : StoreInv s) (hcount : n = activeCountStored s)
    (ht : t = { (saveBookData { s with books := s.books.set n b } (Int.ofNat n)).1 with
                bookPrefs := ((saveBookData { s with books := s.books.set n b }
                    (Int.ofNat n)).1.bookPrefs.put "count"
                  (PrefVal.i (Int.ofNat (n + 1)))) }) :
    StoreInv t := by
  obtain ⟨h1, h2, h3, h4, h5, h6, h7, h8⟩ := hInv
  rw [← hcount] at h3 h4 h5 h6
  have hacst : activeCountStored t = n + 1 := by
    rw [ht]
    unfold activeCountStored
    dsimp only
    rw [Prefs.getIntD_put_i]
    simp [Int.ofNat_eq_natCast]
  have htb : t.books = s.books.set n b := by
    rw [ht]
    dsimp only
    rw [saveBookData_books]
  have htcur : t.currentBookIndex = s.currentBookIndex := by
    rw [ht]
    dsimp only
    rw [saveBookData_currentBookIndex]
  have htprefs : t.prefs = s.prefs := by
    rw [ht]
    dsimp only
    rw [saveBookData_prefs]
  have htad : t.adaptivePomodoroMillis = s.adaptivePomodoroMillis := by
    rw [ht]
    dsimp only
    rw [(saveBookData_adaptive _ _).1]
  unfold StoreInv
  refine ⟨?_, ?_, ?_, ?_, ?_, ?_, ?_, ?_⟩
  · rw [htb, List.length_set]
    exact h1
  · rw [hacst, ht]
    dsimp only
    rw [Prefs.getIntD_put_i]
  · rw [hacst]
    simp only [MAX_BOOKS] at hn ⊢
    omega
  · intro i hi10
    rw [hacst, htb, getD_set]
    split
    · next hc =>
      rw [hb, ← hc.1]
      simp
    · next hc =>
      have hne : n ≠ i := fun e => hc ⟨e, by rw [h1]; exact hn⟩
      rw [h4 i hi10]
      exact decide_eq_decide.mpr (by omega)
  · intro i hi
    rw [hacst] at hi
    have hi10 : i < MAX_BOOKS := by simp only [MAX_BOOKS] at hn ⊢; omega
    constructor
    · rw [ht]
      dsimp only
      rw [Prefs.isKey_put_ne _ _ _ _ (count_ne_slotKey ⟨i, hi10⟩ "_uid" (by decide))]
      by_cases hin : i = n
      · subst hin
        refine saveBookData_isKey_uid_self2 _ _ hn ?_
        dsimp only
        rw [getD_set, if_pos ⟨rfl, by rw [h1]; exact hn⟩]
        exact hb
      · refine saveBookData_isKey_uid _ _ i hi10 ?_
        dsimp only
        exact (h5 i (by omega)).1
    · rw [ht]
      dsimp only
      rw [Prefs.getULong_put_ne _ _ _ _ _ (count_ne_slotKey ⟨i, hi10⟩ "_total" (by decide))]
      by_cases hin : i = n
      · subst hin
        rw [saveBookData_books]
        dsimp only
        rw [getD_set, if_pos ⟨rfl, by rw [h1]; exact hn⟩]
        refine ((saveBookData_total_obs _ i hn ?_).1).trans ?_
        · dsimp only
          rw [getD_set, if_pos ⟨rfl, by rw [h1]; exact hn⟩]
          exact hb
        · dsimp only
          rw [getD_set, if_pos ⟨rfl, by rw [h1]; exact hn⟩]
      · refine saveBookData_total_consistent _ _ i hi10 ?_
        dsimp only
        rw [getD_set, if_neg (fun hc => hin hc.1.symm)]
        exact (h5 i (by omega)).2
  · intro i hi10 hge
    rw [hacst] at hge
    rw [htb, getD_set, if_neg (fun hc => absurd hc.1 (by omega))]
    exact h6 i hi10 (by omega)
  · rw [htcur, htb]
    rcases h7 with h7 | ⟨hc0, hc10, hcact⟩
    · exact Or.inl h7
    · refine Or.inr ⟨hc0, hc10, ?_⟩
      rw [getD_set]
      split
      · exact hb
      · exact hcact
  · rw [htprefs, htad]
    exact h8

theorem addNewBook_StoreInv (s : Sys) (uid : String) (now : Nat) (h : StoreInv s) :
    StoreInv (addNewBook s uid now).1 ∧
    ((addNewBook s uid now).2 = -1 ∨
      (0 ≤ (addNewBook s uid now).2 ∧ (addNewBook s uid now).2 < (MAX_BOOKS : Int) ∧
       ((addNewBook s uid now).1.books.getD (addNewBook s uid now).2.toNat
          emptyBook).isActive = true)) := by
  have hstore := h
  unfold StoreInv at h
  obtain ⟨h1, h2, h3, h4, h5, h6, h7, h8⟩ := h
  by_cases hn : activeCountStored s < MAX_BOOKS
  · -- a free slot exists: the first one is slot `activeCountStored s`
    have hfind : s.books.findIdx? (fun b => !b.isActive) = some (activeCountStored s) := by
      apply findIdx?_first_hit _ _ emptyBook _ (by rw [h1]; exact hn)
      · intro k hk
        have hk10 : k < MAX_BOOKS := lt_of_lt_of_le (hk.trans_le (le_refl _)) h3
        rw [h4 k hk10]
        simp [hk]
      · rw [h4 _ hn]
        simp
    have htn : (Int.ofNat (activeCountStored s)).toNat = activeCountStored s := by
      simp [Int.ofNat_eq_natCast]
    dsimp only [addNewBook]
    rw [hfind]
    constructor
    · refine StoreInv_after_add s _
        { uid := uid, name := generateBookName uid,
          totalSeconds := 0, lastRead := now / 1000,
          sessionCount := 0, pomodoroCount := 0,
          avgSessionMinutes := Frac.ofNat 0, isActive := true }
        (activeCountStored s) rfl hn hstore rfl ?_
      dsimp only
      rw [saveBookData_books]
      dsimp only
      rw [filter_length_set_newActive s.books (activeCountStored s) _ h1 rfl hn h4]
    · refine Or.inr ⟨?_, ?_, ?_⟩
      · exact Int.ofNat_nonneg _
      · simp only [MAX_BOOKS, Int.ofNat_eq_natCast] at hn ⊢
        omega
      · dsimp only
        rw [saveBookData_books]
        dsimp only
        rw [htn, getD_set, if_pos ⟨rfl, by rw [h1]; exact hn⟩]
  · have hfind : s.books.findIdx? (fun b => !b.isActive) = none := by
      apply findIdx?_none_of_all
      intro b hb
      obtain ⟨⟨k, hk⟩, hbk⟩ := List.mem_iff_get.mp hb
      have hbd : s.books.getD k emptyBook = b := by
        rw [List.getD_eq_getElem?_getD, List.getElem?_eq_getElem hk]
        simpa [List.get_eq_getElem] using hbk
      have hk10 : k < MAX_BOOKS := by rw [← h1]; exact hk
      have := h4 k hk10
      rw [hbd] at this
      rw [this]
      simp
      omega
    dsimp only [addNewBook]
    rw [hfind]
    exact ⟨hstore, Or.inl rfl⟩

theorem switchBook_StoreInv (s : Sys) (uid : String) (now : Nat) (h : StoreInv s) :
    StoreInv (switchBook s uid now).1 := by
  dsimp only [switchBook]
  have hc : StoreInv (if 0 ≤ s.currentBookIndex then saveCurrentBookSession s now
      else (s, [])).1 := by
    split
    · exact commit_StoreInv s now h
    · exact h
  set s1 := (if 0 ≤ s.currentBookIndex then saveCurrentBookSession s now else (s, [])).1 with hs1
  by_cases hbi : findBookByUID s1.books uid = -1
  · rw [if_pos hbi]
    obtain ⟨haInv, hares⟩ := addNewBook_StoreInv s1 uid now hc
    rcases hares with hres | ⟨hr0, hr10, hract⟩
    · rw [if_pos hres]
      exact haInv
    · have hne : ¬((addNewBook s1 uid now).2 = -1) := by
        intro e
        rw [e] at hr0
        exact absurd hr0 (by decide)
      rw [if_neg hne]
      exact lastActivity_StoreInv _ now (displayBookInfo_StoreInv _ _ now
        (set_agree_StoreInv _ _ _
          (attach_StoreInv _ _ uid haInv hr0 hr10 hract) rfl rfl))
  · rw [if_neg hbi]
    rcases hfi : s1.books.findIdx? (fun b => b.isActive && b.uid == uid) with _ | i
    · exfalso
      apply hbi
      unfold findBookByUID
      rw [hfi]
    · obtain ⟨heq, hlen, hact⟩ := findBookByUID_found s1.books uid i hfi
      rw [hc.1] at hlen
      have hr0 : 0 ≤ findBookByUID s1.books uid := by
        rw [heq]
        exact Int.ofNat_nonneg _
      have hr10 : findBookByUID s1.books uid < (MAX_BOOKS : Int) := by
        rw [heq]
        simp only [MAX_BOOKS, Int.ofNat_eq_natCast] at hlen ⊢
        omega
      have hract : (s1.books.getD (findBookByUID s1.books uid).toNat
          emptyBook).isActive = true := by
        rw [heq]
        exact hact
      rw [if_neg hbi]
      exact lastActivity_StoreInv _ now (displayBookInfo_StoreInv _ _ now
        (set_agree_StoreInv _ _ _
          (attach_StoreInv _ _ uid hc hr0 hr10 hract) rfl rfl))

theorem setLastUID_StoreInv (s : Sys) (uidStr : String) (h : StoreInv s) :
    StoreInv { s with lastUID := uidStr,
                      prefs := s.prefs.put "lastUID" (PrefVal.s uidStr) } := by
  unfold StoreInv at h ⊢
  obtain ⟨h1, h2, h3, h4, h5, h6, h7, h8⟩ := h
  refine ⟨h1, h2, h3, h4, h5, h6, h7, ?_⟩
  dsimp only
  rw [Prefs.getULong_put_ne _ _ _ _ _ (by decide)]
  exact h8

theorem nfcDetect_StoreInv (s : Sys) (uidStr : String) (now : Nat) (h : StoreInv s) :
    StoreInv (nfcDetect s uidStr now).1 := by
  dsimp only [nfcDetect]
  split
  · refine lastActivity_StoreInv _ now ?_
    dsimp only [showNFCUIDAndSave]
    refine switchBook_StoreInv _ uidStr now ?_
    refine setLastUID_StoreInv _ uidStr ?_
    unfold StoreInv at h ⊢
    exact h
  · exact h

theorem initializeBooks_getD (bp : Prefs) (i : Nat) :
    (initializeBooks bp).getD i emptyBook =
      if i < (bp.getIntD "count" 0).toNat ∧ i < MAX_BOOKS ∧
          bp.isKey (bookKey i ++ "_uid") = true
      then loadedBook bp i else emptyBook := by
  unfold initializeBooks
  rw [getD_map_range]
  by_cases h10 : i < MAX_BOOKS
  · rw [if_pos h10]
  · rw [if_neg h10, if_neg (fun hc => h10 hc.2.1)]

theorem resumeLoad_StoreInv (t : Sys) (h : StoreInv t) :
    StoreInv (resumeLoad t.prefs t.bookPrefs) := by
  unfold StoreInv at h ⊢
  obtain ⟨h1, h2, h3, h4, h5, h6, h7, h8⟩ := h
  refine ⟨?_, ?_, ?_, ?_, ?_, ?_, ?_, ?_⟩
  · show (initializeBooks t.bookPrefs).length = MAX_BOOKS
    unfold initializeBooks
    simp
  · exact h2
  · exact h3
  · intro i hi10
    show ((initializeBooks t.bookPrefs).getD i emptyBook).isActive
      = decide (i < activeCountStored t)
    rw [initializeBooks_getD]
    by_cases hlt : i < activeCountStored t
    · rw [if_pos ⟨hlt, hi10, (h5 i hlt).1⟩]
      simp [loadedBook, hlt]
    · rw [if_neg (fun hc => hlt hc.1)]
      simp [emptyBook, hlt]
  · intro i hi
    have hi' : i < activeCountStored t := hi
    have hi10 : i < MAX_BOOKS := lt_of_lt_of_le hi' h3
    constructor
    · exact (h5 i hi').1
    · show t.bookPrefs.getULong (bookKey i ++ "_total") 0
        = ((initializeBooks t.bookPrefs).getD i emptyBook).totalSeconds
      rw [initializeBooks_getD, if_pos ⟨hi', hi10, (h5 i hi').1⟩]
      rfl
  · intro i hi10 hge
    have hge' : (t.bookPrefs.getIntD "count" 0).toNat ≤ i := hge
    show ((initializeBooks t.bookPrefs).getD i emptyBook).totalSeconds = 0
    rw [initializeBooks_getD, if_neg (fun hc => absurd hc.1 (by omega))]
    rfl
  · exact Or.inl rfl
  · rfl

theorem boot_StoreInv : StoreInv (resumeLoad [] []) := by
  unfold StoreInv
  decide

theorem reachable_StoreInv (s : Sys) (h : Reachable s) : StoreInv s := by
  induction h with
  | boot => exact boot_StoreInv
  | detect s uid now _ ih => exact nfcDetect_StoreInv s uid now ih
  | nfcTimeout s _ ih =>
    unfold StoreInv at ih ⊢
    exact ih
  | startRead s now _ _ _ _ ih =>
    unfold StoreInv at ih ⊢
    exact ih
  | pause s now _ _ ih =>
    unfold StoreInv at ih ⊢
    exact ih
  | complete s now _ _ _ ih => exact complete_StoreInv s now ih
  | restEnd s now _ ih =>
    unfold StoreInv at ih ⊢
    exact ih
  | sleepWake s now _ ih => exact resumeLoad_StoreInv _ (sleep_StoreInv s now ih)

theorem resumeLoad_roundtrip (t : Sys) (h : StoreInv t) :
    (∀ i, ((resumeLoad t.prefs t.bookPrefs).books.getD i emptyBook).totalSeconds
        = (t.books.getD i emptyBook).totalSeconds) ∧
    (resumeLoad t.prefs t.bookPrefs).adaptivePomodoroMillis = t.adaptivePomodoroMillis := by
  unfold StoreInv at h
  obtain ⟨h1, h2, h3, h4, h5, h6, h7, h8⟩ := h
  constructor
  · intro i
    show ((initializeBooks t.bookPrefs).getD i emptyBook).totalSeconds
      = (t.books.getD i emptyBook).totalSeconds
    rw [initializeBooks_getD]
    by_cases hlt : i < activeCountStored t
    · have hi10 : i < MAX_BOOKS := lt_of_lt_of_le hlt h3
      rw [if_pos ⟨hlt, hi10, (h5 i hlt).1⟩]
      exact (h5 i hlt).2
    · by_cases hi10 : i < MAX_BOOKS
      · rw [if_neg (fun hc => hlt hc.1), h6 i hi10 (Nat.le_of_not_lt hlt)]
        rfl
      · rw [if_neg (fun hc => hi10 hc.2.1)]
        have hgd : t.books.getD i emptyBook = emptyBook := by
          rw [List.getD_eq_getElem?_getD,
            List.getElem?_eq_none (by rw [h1]; simp only [MAX_BOOKS] at hi10 ⊢; omega)]
          rfl
        rw [hgd]
  · exact h8

/-! ## Claim C4 -/

/-- C4: for every reachable pre-suspend state, performing the suspend-time
persistence (commit of any in-progress session, save of the adaptive
timer data and last-book index) and then the resume-time reconstruction
(reloading the library and timer data from the persistent key-value
store) yields record totals and an adaptive timer target equal to their
in-memory values at suspension — no data loss across suspend. -/
theorem C4_suspend_resume_roundtrip (s : Sys) (now : Nat) (h : Reachable s) :
    (∀ i, ((suspendResume s now).books.getD i emptyBook).totalSeconds
        = ((enterSmartSleepPersist s now).1.books.getD i emptyBook).totalSeconds) ∧
    (suspendResume s now).adaptivePomodoroMillis
      = (enterSmartSleepPersist s now).1.adaptivePomodoroMillis :=
  resumeLoad_roundtrip _ (sleep_StoreInv s now (reachable_StoreInv s h))

theorem C4_suspend_resume_roundtrip_witness :
    (∀ i, ((suspendResume (nfcDetect (resumeLoad [] []) "04 aa" 5).1 9000000).books.getD i
          emptyBook).totalSeconds
        = ((enterSmartSleepPersist (nfcDetect (resumeLoad [] []) "04 aa" 5).1
            9000000).1.books.getD i emptyBook).totalSeconds) ∧
    (suspendResume (nfcDetect (resumeLoad [] []) "04 aa" 5).1 9000000).adaptivePomodoroMillis
      = (enterSmartSleepPersist (nfcDetect (resumeLoad [] []) "04 aa" 5).1
          9000000).1.adaptivePomodoroMillis :=
  C4_suspend_resume_roundtrip (nfcDetect (resumeLoad [] []) "04 aa" 5).1 9000000
    (Reachable.detect (resumeLoad [] []) "04 aa" 5 Reachable.boot)
